import Mathlib

/-!
Verification development for the Astralis-Engine procedural solar-system
generator.  The C++ core (PlanetManager, Planet, Moon, AsteroidBelt,
PlanetaryRings, Noise) is shallowly embedded over the rationals.

Modelling conventions, used consistently below:

* Machine floats are modelled by `ℚ`; float literals from the source are
  taken at their decimal value (`0.1f` ↦ `1/10`, `3.14159f` ↦
  `314159/100000`).  Claims about floating-point rounding itself are out of
  scope.
* Calls into the math library (`cos`, `sin`, `sqrt`, `atan2`) are modelled
  by an explicit record `MathLib` of pure functions, passed to every
  embedded function that uses them, mirroring how the C code calls libm.
* Each `std::mt19937` instance seeded with `s` together with the
  `uniform_*_distribution` objects drawing from it is modelled by a stream
  of canonical values `(Ω s).canon : ℕ → ℚ` (one value per distribution
  call, in program order), mapped affinely onto `[a,b]` for a real
  distribution and by `a + ⌊u·(b-a+1)⌋` for an integer distribution.  A
  valid stream has every canonical value in `[0,1)`.  Two instances with
  the same seed see the same stream, each with its own cursor, exactly as
  two identically seeded `mt19937` objects produce the same outputs.
* The C global `rand()` stream (used by `Moon::Moon`) is modelled by an
  explicit stream `grand : ℕ → ℕ` together with a cursor threaded through
  generation; the cursor position is the hidden global state.
-/

namespace Astralis

/-- 3-component vector over `ℚ`, modelling `glm::vec3`. -/
structure Vec3 where
  x : ℚ
  y : ℚ
  z : ℚ
deriving DecidableEq

instance : Add Vec3 := ⟨fun a b => ⟨a.x + b.x, a.y + b.y, a.z + b.z⟩⟩

instance : Sub Vec3 := ⟨fun a b => ⟨a.x - b.x, a.y - b.y, a.z - b.z⟩⟩

/-- The zero vector `glm::vec3(0.0f)`. -/
def Vec3.zero : Vec3 := ⟨0, 0, 0⟩

/-- Model of the math library used by the engine: `cos`, `sin`, `sqrt`,
`atan2` are pure functions supplied from outside, as the C code's libm. -/
structure MathLib where
  mcos : ℚ → ℚ
  msin : ℚ → ℚ
  msqrt : ℚ → ℚ
  matan2 : ℚ → ℚ → ℚ

/-- `glm::length(v)` via the modelled `sqrt`. -/
def vlen (lib : MathLib) (v : Vec3) : ℚ :=
  lib.msqrt (v.x * v.x + v.y * v.y + v.z * v.z)

/-- One `std::mt19937` instance (with its distribution objects): a stream
of canonical draws, one per distribution call, in program order. -/
structure RngStream where
  canon : ℕ → ℚ

/-- A stream is valid when every canonical draw lies in `[0,1)`. -/
def RngStream.Valid (r : RngStream) : Prop :=
  ∀ k, 0 ≤ r.canon k ∧ r.canon k < 1

/-- `std::uniform_real_distribution<float>(a,b)` applied to the `k`-th
draw of the stream. -/
def udraw (r : RngStream) (k : ℕ) (a b : ℚ) : ℚ :=
  a + (b - a) * r.canon k

/-- `std::uniform_int_distribution<int>(a,b)` applied to the `k`-th draw
of the stream. -/
def idraw (r : RngStream) (k : ℕ) (a b : ℤ) : ℤ :=
  a + ⌊r.canon k * ((b : ℚ) - (a : ℚ) + 1)⌋

/-- The seeded-generator oracle: maps an `mt19937` seed to its stream. -/
def RngAlg : Type := ℤ → RngStream

/-- Every stream of the oracle is valid. -/
def RngAlg.Valid (Ω : RngAlg) : Prop := ∀ s, (Ω s).Valid

/-- `std::clamp(v, lo, hi)`. -/
def qclamp (v lo hi : ℚ) : ℚ :=
  if v < lo then lo else if hi < v then hi else v

/-- `static_cast<int>` on a float: truncation toward zero. -/
def qtrunc (q : ℚ) : ℤ := if q < 0 then -⌊-q⌋ else ⌊q⌋

/-- The constant `2.0f * 3.14159f` used by `PlanetManager`,
`AsteroidBelt` and `PlanetaryRings` for angle wrapping. -/
def qTwoPi : ℚ := 2 * (314159 / 100000)

/-- The constant `2.0f * M_PI` used by `Moon::update` (double `2π`). -/
def qTwoPiM : ℚ := 6283185307179586 / 1000000000000000

/-- One angle-advance tick as written in `PlanetManager::update`,
`AsteroidBelt::updateAsteroidPositions` and
`PlanetaryRings::updateParticlePositions`:
`angle += d; if (angle > 2π) angle -= 2π;` — a single conditional
subtraction, not a loop. -/
def wrapStep (a d : ℚ) : ℚ :=
  let a' := a + d
  if qTwoPi < a' then a' - qTwoPi else a'

/-- The same single conditional subtraction with the `M_PI`-based
constant, as written in `Moon::update`. -/
def wrapStepM (a d : ℚ) : ℚ :=
  let a' := a + d
  if qTwoPiM < a' then a' - qTwoPiM else a'

/-- A sequence of angle-advance ticks applied to a starting angle. -/
def wrapAngle (a : ℚ) (ds : List ℚ) : ℚ := ds.foldl wrapStep a

/-- A pure 3D base-noise sample function, modelling `Noise::get3D`
(FastNoiseLite evaluation is a pure function of the configured state). -/
def NoiseFn : Type := ℚ → ℚ → ℚ → ℚ

/-- A pure 2D base-noise sample function, modelling `Noise::get2D`. -/
def NoiseFn2 : Type := ℚ → ℚ → ℚ

/-- The octave loop shared by `Noise::getFBm3D` and
`Planet::generateHeight`: iterates `result += noise(p·freq)·amp;
maxValue += amp; amp *= persistence; freq *= lacunarity;` and returns
`(result, maxValue)`. -/
def fbm3DAux (nf : NoiseFn) (x y z lacunarity persistence : ℚ) :
    ℕ → ℚ → ℚ → ℚ → ℚ → ℚ × ℚ
  | 0, _amp, _freq, res, maxV => (res, maxV)
  | Nat.succ n, amp, freq, res, maxV =>
      fbm3DAux nf x y z lacunarity persistence n (amp * persistence)
        (freq * lacunarity) (res + nf (x * freq) (y * freq) (z * freq) * amp)
        (maxV + amp)

/-- The identical octave loop of `Noise::getFBm2D`. -/
def fbm2DAux (nf : NoiseFn2) (x y lacunarity persistence : ℚ) :
    ℕ → ℚ → ℚ → ℚ → ℚ → ℚ × ℚ
  | 0, _amp, _freq, res, maxV => (res, maxV)
  | Nat.succ n, amp, freq, res, maxV =>
      fbm2DAux nf x y lacunarity persistence n (amp * persistence)
        (freq * lacunarity) (res + nf (x * freq) (y * freq) * amp)
        (maxV + amp)

/-- `Noise::getFBm3D`. -/
def getFBm3D (nf : NoiseFn) (x y z : ℚ) (octaves : ℤ)
    (frequency amplitude lacunarity persistence : ℚ) : ℚ :=
  let p := fbm3DAux nf x y z lacunarity persistence octaves.toNat
    amplitude frequency 0 0
  p.1 / p.2

/-- `Noise::getFBm2D`. -/
def getFBm2D (nf : NoiseFn2) (x y : ℚ) (octaves : ℤ)
    (frequency amplitude lacunarity persistence : ℚ) : ℚ :=
  let p := fbm2DAux nf x y lacunarity persistence octaves.toNat
    amplitude frequency 0 0
  p.1 / p.2

/-- `Planet::generateHeight`: zero without a noise source; otherwise the
fixed-gain (`0.5`) fixed-lacunarity (`2`) octave sum starting at amplitude
`1` and the planet's noise frequency, normalized by the amplitude sum and
scaled by the height scale. -/
def generateHeight (noise : Option NoiseFn) (noiseFrequency heightScale : ℚ)
    (noiseOctaves : ℤ) (pos : Vec3) : ℚ :=
  match noise with
  | none => 0
  | some nf =>
    let p := fbm3DAux nf pos.x pos.y pos.z 2 (1/2) noiseOctaves.toNat 1
      noiseFrequency 0 0
    p.1 / p.2 * heightScale

/-- The six cube faces of `Planet::Face`. -/
inductive Face
  | PositiveX
  | NegativeX
  | PositiveY
  | NegativeY
  | PositiveZ
  | NegativeZ
deriving DecidableEq

/-- The face list in the order `Planet::generate` iterates it. -/
def faceList : List Face :=
  [Face.PositiveX, Face.NegativeX, Face.PositiveY, Face.NegativeY,
   Face.PositiveZ, Face.NegativeZ]

/-- `glm::normalize` via the modelled `sqrt`. -/
def vnormalize (lib : MathLib) (v : Vec3) : Vec3 :=
  let l := vlen lib v
  ⟨v.x / l, v.y / l, v.z / l⟩

/-- `Planet::cubeToSphere`: map `(u,v) ∈ [0,1]²` to the cube face, apply
the component-wise square-root seam correction, then normalize. -/
def cubeToSphere (lib : MathLib) (face : Face) (u v : ℚ) : Vec3 :=
  let x := 2 * u - 1
  let y := 2 * v - 1
  let c : Vec3 :=
    match face with
    | Face.PositiveX => ⟨1, -y, -x⟩
    | Face.NegativeX => ⟨-1, -y, x⟩
    | Face.PositiveY => ⟨x, 1, y⟩
    | Face.NegativeY => ⟨x, -1, -y⟩
    | Face.PositiveZ => ⟨x, -y, 1⟩
    | Face.NegativeZ => ⟨-x, -y, -1⟩
  let x2 := c.x * c.x
  let y2 := c.y * c.y
  let z2 := c.z * c.z
  let s : Vec3 :=
    ⟨c.x * lib.msqrt (1 - y2 * (1/2) - z2 * (1/2) + y2 * z2 / 3),
     c.y * lib.msqrt (1 - z2 * (1/2) - x2 * (1/2) + z2 * x2 / 3),
     c.z * lib.msqrt (1 - x2 * (1/2) - y2 * (1/2) + x2 * y2 / 3)⟩
  vnormalize lib s

/-- `Planet::calculateNormal`: with no noise source, the normalized
position; otherwise the (re-)normalized position (the sampled center
height is computed and discarded by the source). -/
def calculateNormal (lib : MathLib) (noise : Option NoiseFn)
    (position : Vec3) : Vec3 :=
  match noise with
  | none => vnormalize lib position
  | some _ => vnormalize lib (vnormalize lib position)

/-- A mesh vertex (position, normal, UV), `Geometry::Vertex`. -/
structure Vertex where
  pos : Vec3
  norm : Vec3
  uv : ℚ × ℚ
deriving DecidableEq

/-- A generated triangle mesh: vertex list plus index list. -/
structure MeshData where
  vertices : List Vertex
  indices : List ℕ
deriving DecidableEq

/-- The empty mesh owned by a freshly constructed `Planet`. -/
def emptyMesh : MeshData := ⟨[], []⟩

/-- The vertex loop of `Planet::generateFace` for one face. -/
def faceVertices (lib : MathLib) (noise : Option NoiseFn)
    (noiseFrequency heightScale : ℚ) (noiseOctaves : ℤ) (radius : ℚ)
    (resolution : ℤ) (face : Face) : List Vertex :=
  (List.range resolution.toNat).flatMap (fun yy =>
    (List.range resolution.toNat).map (fun xx =>
      let u := (xx : ℚ) / ((resolution : ℚ) - 1)
      let v := (yy : ℚ) / ((resolution : ℚ) - 1)
      let spherePos := cubeToSphere lib face u v
      let height := generateHeight noise noiseFrequency heightScale
        noiseOctaves spherePos
      let finalPos : Vec3 :=
        ⟨spherePos.x * (radius + height), spherePos.y * (radius + height),
         spherePos.z * (radius + height)⟩
      ⟨finalPos, calculateNormal lib noise spherePos, (u, v)⟩))

/-- The index loop of `Planet::generateFace` for one face: two triangles
per grid cell, offset by the face's vertex offset. -/
def faceIndices (resolution : ℤ) (vertexOffset : ℕ) : List ℕ :=
  (List.range (resolution.toNat - 1)).flatMap (fun yy =>
    (List.range (resolution.toNat - 1)).flatMap (fun xx =>
      let topLeft := vertexOffset + yy * resolution.toNat + xx
      let topRight := topLeft + 1
      let bottomLeft := topLeft + resolution.toNat
      let bottomRight := bottomLeft + 1
      [topLeft, bottomLeft, topRight, topRight, bottomLeft, bottomRight]))

/-- The mesh built by `Planet::generate`: all six faces, vertex offsets
`faceIndex * resolution²`. -/
def buildMesh (lib : MathLib) (noise : Option NoiseFn)
    (noiseFrequency heightScale : ℚ) (noiseOctaves : ℤ) (radius : ℚ)
    (resolution : ℤ) : MeshData :=
  { vertices := faceList.flatMap (fun f =>
      faceVertices lib noise noiseFrequency heightScale noiseOctaves radius
        resolution f)
  , indices := (faceList.enum).flatMap (fun p =>
      faceIndices resolution (p.1 * (resolution.toNat * resolution.toNat))) }

/-- The `Planet` object state. -/
structure PlanetObj where
  radius : ℚ
  resolution : ℤ
  noise : Option NoiseFn
  heightScale : ℚ
  noiseFrequency : ℚ
  noiseOctaves : ℤ
  needsRegeneration : Bool
  geometry : MeshData

/-- `Planet::Planet(radius, resolution, noise)`: stores radius and
resolution unmodified (no clamping in the constructor), defaults
heightScale 1, frequency 0.01, octaves 4, and marks regeneration. -/
def Planet.mkP (radius : ℚ) (resolution : ℤ) (noise : Option NoiseFn) :
    PlanetObj :=
  { radius := radius
  , resolution := resolution
  , noise := noise
  , heightScale := 1
  , noiseFrequency := 1/100
  , noiseOctaves := 4
  , needsRegeneration := true
  , geometry := emptyMesh }

/-- `Planet::generate`: rebuilds the mesh only when flagged. -/
def Planet.generate (lib : MathLib) (p : PlanetObj) : PlanetObj :=
  if p.needsRegeneration then
    { p with
      geometry := buildMesh lib p.noise p.noiseFrequency p.heightScale
        p.noiseOctaves p.radius p.resolution
    , needsRegeneration := false }
  else p

/-- `Planet::setResolution`: clamps to a minimum of 2, but only when the
new value differs from the stored one. -/
def Planet.setResolution (p : PlanetObj) (resolution : ℤ) : PlanetObj :=
  if p.resolution ≠ resolution then
    { p with resolution := max 2 resolution, needsRegeneration := true }
  else p

/-- `Planet::setRadius`. -/
def Planet.setRadius (p : PlanetObj) (radius : ℚ) : PlanetObj :=
  if p.radius ≠ radius then
    { p with radius := radius, needsRegeneration := true }
  else p

/-- `Planet::setHeightScale` (no regeneration flag in the source). -/
def Planet.setHeightScale (p : PlanetObj) (s : ℚ) : PlanetObj :=
  { p with heightScale := s }

/-- `Planet::setNoiseFrequency`. -/
def Planet.setNoiseFrequency (p : PlanetObj) (f : ℚ) : PlanetObj :=
  { p with noiseFrequency := f }

/-- `Planet::setNoiseOctaves`. -/
def Planet.setNoiseOctaves (p : PlanetObj) (o : ℤ) : PlanetObj :=
  { p with noiseOctaves := o }

/-- The `Moon` object state. -/
structure MoonB where
  planet : PlanetObj
  position : Vec3
  color : Vec3
  radius : ℚ
  orbitRadius : ℚ
  orbitSpeed : ℚ
  currentOrbitAngle : ℚ
  orbitInclination : ℚ
  rotationSpeed : ℚ
  currentRotation : ℚ

/-- The orbital inclination `Moon::Moon` computes from one draw of the
C global `rand()` stream: `((rand() % 100) / 100.0f - 0.5f) * 0.2f`. -/
def inclOfRand (r : ℕ) : ℚ := (((r % 100 : ℕ) : ℚ) / 100 - 1/2) * (1/5)

/-- `Moon::Moon(radius, orbitRadius, orbitSpeed, color, resolution)`:
builds its sphere mesh through a noise-less `Planet`, and draws its
orbital inclination from the global `rand()` stream (`randVal` is the
value that call returns). -/
def Moon.mkM (lib : MathLib) (randVal : ℕ)
    (radius orbitRadius orbitSpeed : ℚ) (color : Vec3) (resolution : ℤ) :
    MoonB :=
  { planet := Planet.generate lib (Planet.mkP radius resolution none)
  , position := Vec3.zero
  , color := color
  , radius := radius
  , orbitRadius := orbitRadius
  , orbitSpeed := orbitSpeed
  , currentOrbitAngle := 0
  , orbitInclination := inclOfRand randVal
  , rotationSpeed := 2
  , currentRotation := 0 }

/-- `Moon::update(deltaTime, planetPosition)`. -/
def Moon.update (lib : MathLib) (dt : ℚ) (planetPosition : Vec3)
    (m : MoonB) : MoonB :=
  let ang := wrapStepM m.currentOrbitAngle (m.orbitSpeed * dt)
  let rot := wrapStepM m.currentRotation (m.rotationSpeed * dt)
  let x := m.orbitRadius * lib.mcos ang
  let z := m.orbitRadius * lib.msin ang
  let y := m.orbitRadius * lib.msin m.orbitInclination * lib.msin ang
  { m with
    currentOrbitAngle := ang
  , currentRotation := rot
  , position := planetPosition + ⟨x, y, z⟩ }

/-- The `PlanetInstance` record of `PlanetManager.hpp`. -/
structure PlanetInstance where
  planet : PlanetObj
  position : Vec3
  scale : ℚ
  color : Vec3
  rotationSpeed : ℚ
  currentRotation : ℚ
  seed : ℤ
  ptype : ℤ
  orbitRadius : ℚ
  orbitSpeed : ℚ
  currentOrbitAngle : ℚ
  orbitCenter : Vec3
  orbitInclination : ℚ
  orbitEccentricity : ℚ
  moons : List MoonB

/-- `PlanetManager::generatePlanetProperties(seed, distance)`: one fresh
`mt19937(seed)` draws, in order, the type choice, the radius, three color
jitters and the rotation speed, with all distribution ranges selected by
the distance bands of the source.  Returns
`(radius, color, rotationSpeed, planetType)`. -/
def generatePlanetProperties (Ω : RngAlg) (seed : ℤ) (distance : ℚ) :
    ℚ × Vec3 × ℚ × ℤ :=
  let r := Ω seed
  let planetType : ℤ :=
    if distance < 50 then
      let typeChoice := idraw r 0 0 3
      if typeChoice ≤ 1 then 0 else 3
    else if distance < 150 then
      idraw r 0 0 2
    else
      if idraw r 0 0 1 = 0 then 1 else 2
  let radius0 : ℚ :=
    if distance < 50 then udraw r 1 (4/5) (5/2)
    else if distance < 100 then udraw r 1 (3/2) 4
    else udraw r 1 2 8
  let radius : ℚ :=
    if planetType = 1 then radius0 * (11/5)
    else if planetType = 2 then radius0 * (7/5)
    else radius0
  let base : Vec3 :=
    if planetType = 0 then ⟨3/5, 1/2, 2/5⟩
    else if planetType = 1 then ⟨4/5, 3/5, 3/10⟩
    else if planetType = 2 then ⟨7/10, 4/5, 9/10⟩
    else if planetType = 3 then ⟨4/5, 7/10, 2/5⟩
    else ⟨1/2, 1/2, 1/2⟩
  let cr := qclamp (base.x + udraw r 2 (-1/10) (1/10)) (1/5) 1
  let cg := qclamp (base.y + udraw r 3 (-1/10) (1/10)) (1/5) 1
  let cb := qclamp (base.z + udraw r 4 (-1/10) (1/10)) (1/5) 1
  let rotationSpeed0 := udraw r 5 (1/10) 2 / radius
  let rotationSpeed :=
    if planetType = 1 then rotationSpeed0 * (1/2) else rotationSpeed0
  (radius, ⟨cr, cg, cb⟩, rotationSpeed, planetType)

/-- The `maxMoons` selection of `PlanetManager::generateMoonsForPlanet`. -/
def maxMoonsFor (ptype : ℤ) (scale : ℚ) : ℤ :=
  if ptype = 1 then 4
  else if 8 < scale then 3
  else if 5 < scale then 2
  else 1

/-- `PlanetManager::generateMoonsForPlanet(planet, seed)`: a fresh
`mt19937(seed + 54321)` draws the moon count from `[0, maxMoons]`, then
per moon its radius, orbit radius, orbit speed and three color channels
(six draws per moon, cumulative indices); each `Moon` construction
consumes one value of the global `rand()` stream at the threaded cursor.
Returns the moon list and the advanced `rand()` cursor. -/
def generateMoonsForPlanet (lib : MathLib) (Ω : RngAlg) (grand : ℕ → ℕ)
    (gcur : ℕ) (seed : ℤ) (ptype : ℤ) (scale : ℚ) : List MoonB × ℕ :=
  let r := Ω (seed + 54321)
  let maxMoons := maxMoonsFor ptype scale
  let moonCount := idraw r 0 0 maxMoons
  let n := moonCount.toNat
  ((List.range n).map (fun i =>
    let moonRadius := udraw r (1 + 6 * i) 1 (scale * (3/10))
    let orbitRadius := udraw r (2 + 6 * i) (scale * 2) (scale * 6)
    let orbitSpeed := udraw r (3 + 6 * i) (1/2) 2
    let moonColor : Vec3 :=
      ⟨udraw r (4 + 6 * i) (3/5) 1 * (4/5),
       udraw r (5 + 6 * i) (3/5) 1 * (4/5),
       udraw r (6 + 6 * i) (3/5) 1 * (4/5)⟩
    Moon.mkM lib (grand (gcur + i)) moonRadius orbitRadius orbitSpeed
      moonColor 16),
   gcur + n)

/-- `PlanetManager::addPlanet(position, radius, color, rotationSpeed,
seed, type, resolution)`: without a noise generator nothing is added;
otherwise the planet object is configured from `mt19937(seed)` (height
scale, noise frequency, octave count) and generated, the orbital
parameters are derived (`orbitRadius = |position|`,
`orbitSpeed = 0.5/sqrt(0.1·|position|+1)`,
`currentOrbitAngle = atan2(z,x)`, inclination and eccentricity from
`mt19937(seed+12345)`), and moons are attached.  Returns the new
instance (if any) and the advanced `rand()` cursor. -/
def addPlanet (lib : MathLib) (noise : Option NoiseFn) (Ω : RngAlg)
    (grand : ℕ → ℕ) (gcur : ℕ) (position : Vec3) (radius : ℚ)
    (color : Vec3) (rotationSpeed : ℚ) (seed : ℤ) (ptype : ℤ)
    (resolution : ℤ) : Option PlanetInstance × ℕ :=
  match noise with
  | none => (none, gcur)
  | some nf =>
    let r := Ω seed
    let p0 := Planet.mkP radius resolution (some nf)
    let p1 := Planet.setHeightScale p0 (udraw r 0 (1/10) (4/5))
    let p2 := Planet.setNoiseFrequency p1 (udraw r 1 (1/100) (1/20))
    let p3 := Planet.setNoiseOctaves p2 (idraw r 2 3 6)
    let p4 := Planet.generate lib p3
    let distance := vlen lib position
    let orb := Ω (seed + 12345)
    let mres := generateMoonsForPlanet lib Ω grand gcur seed ptype 1
    (some
      { planet := p4
      , position := position
      , scale := 1
      , color := color
      , rotationSpeed := rotationSpeed
      , currentRotation := 0
      , seed := seed
      , ptype := ptype
      , orbitRadius := distance
      , orbitSpeed := (1/2) / lib.msqrt (distance * (1/10) + 1)
      , currentOrbitAngle := lib.matan2 position.z position.x
      , orbitCenter := Vec3.zero
      , orbitInclination := udraw orb 0 (-1/10) (1/10)
      , orbitEccentricity := udraw orb 1 0 (1/5)
      , moons := mres.1 },
     mres.2)

/-- One candidate draw of the placement loop of
`PlanetManager::generateSolarSystem`: three draws from the system stream
at the given cursor (angle, distance, height), the candidate position,
the candidate radius from
`generatePlanetProperties(systemSeed + i*1000 + attempts, distance)`, and
the collision verdict against the already placed planets. -/
def attemptOnce (lib : MathLib) (Ω : RngAlg) (systemSeed : ℤ) (i : ℕ)
    (attempts : ℕ) (cursor : ℕ) (placed : List (Vec3 × ℚ)) :
    Vec3 × ℚ × Bool :=
  let sr := Ω systemSeed
  let angle := udraw sr cursor 0 qTwoPi
  let distance := udraw sr (cursor + 1) 25 120
  let height := udraw sr (cursor + 2) (-10) 10
  let position : Vec3 :=
    ⟨distance * lib.mcos angle, height, distance * lib.msin angle⟩
  let planetSeed := systemSeed + (i : ℤ) * 1000 + (attempts : ℤ)
  let tempRadius := (generatePlanetProperties Ω planetSeed distance).1
  let valid := placed.all (fun pr =>
    !(decide (vlen lib (position - pr.1) < tempRadius + pr.2 + 5)))
  (position, tempRadius, valid)

/-- The `do { … } while (!validPosition && attempts < 50)` loop: `fuel`
is `50 - attempts`; returns the accepted `(position, candidateRadius)`
(or `none` after 50 failures) together with the system-stream cursor
after the loop. -/
def placeLoop (lib : MathLib) (Ω : RngAlg) (systemSeed : ℤ) (i : ℕ) :
    ℕ → ℕ → ℕ → List (Vec3 × ℚ) → Option (Vec3 × ℚ) × ℕ
  | 0, _attempts, cursor, _placed => (none, cursor)
  | Nat.succ fuel, attempts, cursor, placed =>
    let t := attemptOnce lib Ω systemSeed i attempts cursor placed
    let attempts' := attempts + 1
    if t.2.2 then (some (t.1, t.2.1), cursor + 3)
    else if attempts' < 50 then
      placeLoop lib Ω systemSeed i fuel attempts' (cursor + 3) placed
    else (none, cursor + 3)

/-- The evolving state of `PlanetManager::generateSolarSystem`: the
planet list, the `planetPositions` collision list (position and final
radius), a ghost list of the accepted candidate radii (the values the
collision checks actually used), the system-stream cursor, and the
global `rand()` cursor. -/
structure GenState where
  planets : List PlanetInstance
  placed : List (Vec3 × ℚ)
  tempRadii : List ℚ
  sysCursor : ℕ
  grandCursor : ℕ

/-- The initial generation state (after `clear()`). -/
def GenState.init : GenState := ⟨[], [], [], 0, 0⟩

/-- The body of the per-planet loop of
`PlanetManager::generateSolarSystem` for planet index `i`: run the
placement loop; on success recompute the final properties from
`mt19937(systemSeed + i*1000)` at `|position|`, add the planet (with all
its moons), and record `(position, finalRadius)` in the collision
list. -/
def planetStep (lib : MathLib) (noise : Option NoiseFn) (Ω : RngAlg)
    (grand : ℕ → ℕ) (systemSeed : ℤ) (st : GenState) (i : ℕ) : GenState :=
  let res := placeLoop lib Ω systemSeed i 50 0 st.sysCursor st.placed
  match res.1 with
  | none => { st with sysCursor := res.2 }
  | some pr =>
    let planetSeed := systemSeed + (i : ℤ) * 1000
    let props := generatePlanetProperties Ω planetSeed (vlen lib pr.1)
    let ares := addPlanet lib noise Ω grand st.grandCursor pr.1 props.1
      props.2.1 props.2.2.1 planetSeed props.2.2.2 32
    { planets := st.planets ++ ares.1.toList
    , placed := st.placed ++ [(pr.1, props.1)]
    , tempRadii := st.tempRadii ++ [pr.2]
    , sysCursor := res.2
    , grandCursor := ares.2 }

/-- `PlanetManager::generateSolarSystem(systemSeed, planetCount)`. -/
def generateSolarSystem (lib : MathLib) (noise : Option NoiseFn)
    (Ω : RngAlg) (grand : ℕ → ℕ) (systemSeed : ℤ) (planetCount : ℕ) :
    GenState :=
  (List.range planetCount).foldl
    (planetStep lib noise Ω grand systemSeed) GenState.init

/-- The per-planet body of `PlanetManager::update(deltaTime)`: advance
and wrap the self-rotation and the orbit angle, recompute the position
from eccentricity and inclination, then update every moon with the
already-updated planet position. -/
def instUpdate (lib : MathLib) (dt : ℚ) (pi : PlanetInstance) :
    PlanetInstance :=
  let rot := wrapStep pi.currentRotation (pi.rotationSpeed * dt)
  let ang := wrapStep pi.currentOrbitAngle (pi.orbitSpeed * dt)
  let adjustedRadius := pi.orbitRadius * (1 - pi.orbitEccentricity * lib.mcos ang)
  let x := adjustedRadius * lib.mcos ang
  let z := adjustedRadius * lib.msin ang
  let y : ℚ := 0
  let incl := pi.orbitInclination
  let yz : ℚ × ℚ :=
    if incl ≠ 0 then
      (y * lib.mcos incl - z * lib.msin incl,
       y * lib.msin incl + z * lib.mcos incl)
    else (y, z)
  let pos := pi.orbitCenter + ⟨x, yz.1, yz.2⟩
  { pi with
    currentRotation := rot
  , currentOrbitAngle := ang
  , position := pos
  , moons := pi.moons.map (Moon.update lib dt pos) }

/-- `PlanetManager::update(deltaTime)` over the planet list. -/
def managerUpdate (lib : MathLib) (dt : ℚ) (planets : List PlanetInstance) :
    List PlanetInstance :=
  planets.map (instUpdate lib dt)

/-- `PlanetManager::calculateLOD(distance, planetRadius)` with the
constructor-fixed tiers 64/32/16 and thresholds 100/500. -/
def calculateLOD (distance planetRadius : ℚ) : ℤ :=
  let effectiveDistance := distance / (planetRadius + 1)
  if effectiveDistance < 100 then 64
  else if effectiveDistance < 500 then 32
  else 16

/-- The LOD block of `PlanetManager::render` for one body: compute the
target resolution and, only when it differs from the body's current
resolution, call `setResolution` and `generate`.  The Boolean records
whether a regeneration was triggered. -/
def lodStep (lib : MathLib) (distance : ℚ) (p : PlanetObj) :
    PlanetObj × Bool :=
  let targetLOD := calculateLOD distance p.radius
  if p.resolution ≠ targetLOD then
    (Planet.generate lib (Planet.setResolution p targetLOD), true)
  else (p, false)

/-- One asteroid of `AsteroidBelt`. -/
structure Asteroid where
  position : Vec3
  orbitRadius : ℚ
  orbitAngle : ℚ
  orbitSpeed : ℚ
  rotation : Vec3
  rotationSpeed : Vec3
  scale : ℚ
  color : Vec3
deriving DecidableEq

/-- The `AsteroidBelt` state. -/
structure BeltState where
  innerRadius : ℚ
  outerRadius : ℚ
  asteroidCount : ℤ
  seed : ℤ
  asteroids : List Asteroid
deriving DecidableEq

/-- `AsteroidBelt::generateAsteroids`: a fresh `mt19937(seed)` draws,
per asteroid, its orbit radius, orbit angle, orbit speed, height, three
rotation angles, three rotation speeds, scale and gray level — twelve
draws, cumulative indices. -/
def generateAsteroids (lib : MathLib) (Ω : RngAlg) (b : BeltState) :
    BeltState :=
  let r := Ω b.seed
  { b with asteroids := (List.range b.asteroidCount.toNat).map (fun i =>
      let orbitRadius := udraw r (12 * i) b.innerRadius b.outerRadius
      let orbitAngle := udraw r (12 * i + 1) 0 qTwoPi
      let orbitSpeed := udraw r (12 * i + 2) (1/10) (1/2) / orbitRadius
      let height := udraw r (12 * i + 3) (-2) 2
      let position : Vec3 :=
        ⟨orbitRadius * lib.mcos orbitAngle, height,
         orbitRadius * lib.msin orbitAngle⟩
      let rotation : Vec3 :=
        ⟨udraw r (12 * i + 4) 0 qTwoPi, udraw r (12 * i + 5) 0 qTwoPi,
         udraw r (12 * i + 6) 0 qTwoPi⟩
      let rotationSpeed : Vec3 :=
        ⟨udraw r (12 * i + 7) (-2) 2, udraw r (12 * i + 8) (-2) 2,
         udraw r (12 * i + 9) (-2) 2⟩
      let scale := udraw r (12 * i + 10) (1/10) (4/5)
      let baseGray := udraw r (12 * i + 11) (3/10) (4/5)
      { position := position
      , orbitRadius := orbitRadius
      , orbitAngle := orbitAngle
      , orbitSpeed := orbitSpeed
      , rotation := rotation
      , rotationSpeed := rotationSpeed
      , scale := scale
      , color := ⟨baseGray * (4/5), baseGray * (7/10), baseGray * (3/5)⟩ }) }

/-- `AsteroidBelt::AsteroidBelt(innerRadius, outerRadius, asteroidCount,
seed)`: stores the parameters and generates the asteroid list. -/
def AsteroidBelt.mkB (lib : MathLib) (Ω : RngAlg)
    (innerRadius outerRadius : ℚ) (asteroidCount : ℤ) (seed : ℤ) :
    BeltState :=
  generateAsteroids lib Ω
    { innerRadius := innerRadius
    , outerRadius := outerRadius
    , asteroidCount := asteroidCount
    , seed := seed
    , asteroids := [] }

/-- `AsteroidBelt::setDensity(density)`: clamp to `[0.1, 2.0]`, truncate
`asteroidCount_ * density` to int, and — only when that differs from the
current list size — overwrite `asteroidCount_` and regenerate. -/
def AsteroidBelt.setDensity (lib : MathLib) (Ω : RngAlg) (b : BeltState)
    (density : ℚ) : BeltState :=
  let d := qclamp density (1/10) 2
  let newCount := qtrunc ((b.asteroidCount : ℚ) * d)
  if newCount ≠ (b.asteroids.length : ℤ) then
    generateAsteroids lib Ω { b with asteroidCount := newCount }
  else b

/-- One particle of `PlanetaryRings`. -/
structure RingParticle where
  position : Vec3
  orbitRadius : ℚ
  orbitAngle : ℚ
  orbitSpeed : ℚ
  size : ℚ
  color : Vec3
  alpha : ℚ
deriving DecidableEq

/-- The `PlanetaryRings` state. -/
structure RingsState where
  planetPosition : Vec3
  planetRadius : ℚ
  innerRadius : ℚ
  outerRadius : ℚ
  particleCount : ℤ
  seed : ℤ
  particles : List RingParticle
deriving DecidableEq

/-- `PlanetaryRings::generateRingParticles`: a fresh `mt19937(seed)`
draws, per particle, its orbit radius, orbit angle, orbit speed, height,
size, color variation and alpha — seven draws, cumulative indices; the
palette branch depends on the normalized radius. -/
def generateRingParticles (lib : MathLib) (Ω : RngAlg) (s : RingsState) :
    RingsState :=
  let r := Ω s.seed
  { s with particles := (List.range s.particleCount.toNat).map (fun i =>
      let orbitRadius := udraw r (7 * i) s.innerRadius s.outerRadius
      let orbitAngle := udraw r (7 * i + 1) 0 qTwoPi
      let normalizedRadius :=
        (orbitRadius - s.innerRadius) / (s.outerRadius - s.innerRadius)
      let orbitSpeed :=
        udraw r (7 * i + 2) (1/2) 2 / (1 + normalizedRadius * 2)
      let height := udraw r (7 * i + 3) (-1/5) (1/5)
      let position : Vec3 := s.planetPosition +
        ⟨orbitRadius * lib.mcos orbitAngle, height,
         orbitRadius * lib.msin orbitAngle⟩
      let size := udraw r (7 * i + 4) (1/50) (1/10)
      let iceRatio := 1 - normalizedRadius
      let colorVar := udraw r (7 * i + 5) (3/5) 1
      let color : Vec3 :=
        if (1/2 : ℚ) < iceRatio then
          ⟨colorVar * (9/10), colorVar * (19/20), colorVar⟩
        else
          ⟨colorVar * (4/5), colorVar * (3/5), colorVar * (2/5)⟩
      let alpha := udraw r (7 * i + 6) (3/10) (4/5)
      { position := position
      , orbitRadius := orbitRadius
      , orbitAngle := orbitAngle
      , orbitSpeed := orbitSpeed
      , size := size
      , color := color
      , alpha := alpha }) }

/-- `PlanetaryRings::PlanetaryRings(...)`: stores the parameters and
generates the particle list. -/
def PlanetaryRings.mkR (lib : MathLib) (Ω : RngAlg)
    (planetPosition : Vec3) (planetRadius innerRadius outerRadius : ℚ)
    (particleCount : ℤ) (seed : ℤ) : RingsState :=
  generateRingParticles lib Ω
    { planetPosition := planetPosition
    , planetRadius := planetRadius
    , innerRadius := innerRadius
    , outerRadius := outerRadius
    , particleCount := particleCount
    , seed := seed
    , particles := [] }

/-- `PlanetaryRings::setDensity(density)`: clamp to `[0.1, 3.0]`,
truncate `particleCount_ * density` to int, and — only when that differs
from the current list size — overwrite `particleCount_` and
regenerate. -/
def PlanetaryRings.setDensity (lib : MathLib) (Ω : RngAlg)
    (s : RingsState) (density : ℚ) : RingsState :=
  let d := qclamp density (1/10) 3
  let newCount := qtrunc ((s.particleCount : ℚ) * d)
  if newCount ≠ (s.particles.length : ℤ) then
    generateRingParticles lib Ω { s with particleCount := newCount }
  else s

/-! Verification-specific definitions: projections, erasures, and the
concrete instantiations used by counterexamples and witnesses.  In every
concrete scenario below the streams are chosen so that each `cos`/`sin`
evaluation happens at angle `0` and each `sqrt` evaluation happens at a
perfect square of a rational, so the concrete `MathLib` below returns
exactly the values the C library would return at those points. -/

/-- The persistent (non-kinematic) fields of a moon. -/
def moonPersist (m : MoonB) :
    PlanetObj × Vec3 × ℚ × ℚ × ℚ × ℚ × ℚ :=
  (m.planet, m.color, m.radius, m.orbitRadius, m.orbitSpeed,
   m.orbitInclination, m.rotationSpeed)

/-- Zero out the one `rand()`-derived field of a moon. -/
def MoonB.erase (m : MoonB) : MoonB := { m with orbitInclination := 0 }

/-- Zero out the `rand()`-derived fields of a planet instance. -/
def PlanetInstance.erase (p : PlanetInstance) : PlanetInstance :=
  { p with moons := p.moons.map MoonB.erase }

/-- Zero out the `rand()`-derived fields of a generation state. -/
def GenState.erase (st : GenState) : GenState :=
  { st with planets := st.planets.map PlanetInstance.erase }

/-- The separation property the collision loop actually establishes:
every later-placed planet keeps, from every earlier one, at least the
earlier planet's stored (final) radius plus the later planet's accepted
candidate radius plus the 5-unit buffer. -/
def pairwiseOk (lib : MathLib) (placed : List (Vec3 × ℚ))
    (temps : List ℚ) : Prop :=
  ∀ i j pi pj tj, i < j → placed.get? i = some pi →
    placed.get? j = some pj → temps.get? j = some tj →
    tj + pi.2 + 5 ≤ vlen lib (pj.1 - pi.1)

/-- Square-root table for the scenarios: every argument the scenarios
evaluate is a perfect square of a rational and is listed here with its
exact root (`(145/2)² = 21025/4`, `(63/5)² = 3969/25`,
`(629/10)² = 395641/100`, `(101/2)² = 10201/4`,
`(15002/125)² = 225060004/15625`); the catch-all is never the value of a
field any scenario statement projects. -/
def ceSqrt (q : ℚ) : ℚ :=
  if q = 0 then 0
  else if q = 21025/4 then 145/2
  else if q = 3969/25 then 63/5
  else if q = 395641/100 then 629/10
  else if q = 10201/4 then 101/2
  else if q = 225060004/15625 then 15002/125
  else 0

/-- Concrete math library for the scenarios: every scenario evaluates
`cos`/`sin` only at `0` (where `cosf` returns exactly `1` and `sinf`
exactly `0`) and `sqrt` only at perfect squares of rationals (where
`ceSqrt` returns the exact root). -/
def ceLib : MathLib :=
  { mcos := fun _ => 1
  , msin := fun _ => 0
  , msqrt := ceSqrt
  , matan2 := fun _ _ => 0 }

/-- Concrete base-noise function for the scenarios. -/
def ceNoiseFn : NoiseFn := fun _ _ _ => 0

/-- A base-noise function bounded in `[-1, 1]`: `1` for first-octave
sample points (`x ≤ 1`), `-1` beyond. -/
def c7nf : NoiseFn := fun a _ _ => if a ≤ 1 then 1 else -1

/-- The everywhere-`1/2` canonical stream. -/
def constStream : RngStream := ⟨fun _ => 1/2⟩

/-- The oracle assigning every seed the `1/2` stream. -/
def constΩ : RngAlg := fun _ => constStream

/-- The all-zero global `rand()` stream. -/
def grandZero : ℕ → ℕ := fun _ => 0

/-- A global `rand()` stream returning `50` (a different global state). -/
def grandFifty : ℕ → ℕ := fun _ => 50

/-- Oracle for the C1 scenario (seed 1337, one planet, one moon): the
system/planet stream draws angle `0`, distance `72.5`, height `0`; the
moon stream (seed `1337+54321`) draws canonical `1/2` everywhere, giving
one moon. -/
def omega1 : RngAlg := fun s =>
  if s = 1337 then ⟨fun k => if k = 0 then 0 else 1/2⟩
  else if s = 55658 then constStream
  else ⟨fun _ => 0⟩

/-- Oracle for the C2 scenario (system seed 7, two planets): planet 0 at
angle `0`, distance `62.1`, height `-10`; planet 1 at angle `0`,
distance `49.5`, height `-10`, with its property stream (seed `1007`)
drawing type canonical `2/5` and radius canonical `1/2` — so its
candidate radius (inner band, rocky) is `1.65` while its stored radius
(middle band, gas giant) is `6.05`. -/
def omega2 : RngAlg := fun s =>
  if s = 7 then
    ⟨fun k => if k = 1 then 371/950 else if k = 4 then 49/190 else 0⟩
  else if s = 1007 then
    ⟨fun k => if k = 0 then 2/5 else if k = 1 then 1/2 else 0⟩
  else ⟨fun _ => 0⟩

/-- Oracle for the C4 scenario (seed 1337, eight requested planets): the
system stream repeats angle `0`, distance `119.6`, height `9.984`, so
planet 0 sits at distance `√(119.6² + 9.984²) = 120.016` from the origin
and every later candidate coincides with it and is rejected. -/
def omega4 : RngAlg := fun s =>
  if s = 1337 then
    ⟨fun k => if k % 3 = 1 then 473/475 else if k % 3 = 2 then 1249/1250
      else 0⟩
  else ⟨fun _ => 0⟩

/-- A concrete ten-asteroid belt (inner 40, outer 60, seed 5). -/
def ceBelt : BeltState := AsteroidBelt.mkB ceLib constΩ 40 60 10 5

/-- A concrete ten-particle ring system (inner 12, outer 18, seed 5). -/
def ceRings : RingsState :=
  PlanetaryRings.mkR ceLib constΩ Vec3.zero 8 12 18 10 5

theorem wrapStep_bounds (a d : ℚ) (ha0 : 0 ≤ a) (ha1 : a ≤ qTwoPi)
    (hd0 : 0 ≤ d) (hd1 : d ≤ qTwoPi) :
    0 ≤ wrapStep a d ∧ wrapStep a d ≤ qTwoPi := by
  simp only [wrapStep]
  split
  · constructor <;> linarith
  · constructor <;> linarith

/-- C5 (amended): the claim that the stored angle remains in `[0, 2π)`
after any tick sequence fails (the wrap is one conditional subtraction and
triggers only on strict excess), but the invariant that does hold is: if
the angle starts in `[0, 2π]` and every per-tick advance `speed·Δt` is in
`[0, 2π]`, the stored angle stays in the closed interval `[0, 2π]`. -/
theorem c5_angle_wrap (a : ℚ) (ds : List ℚ)
    (ha : 0 ≤ a ∧ a ≤ qTwoPi) (hds : ∀ d ∈ ds, 0 ≤ d ∧ d ≤ qTwoPi) :
    0 ≤ wrapAngle a ds ∧ wrapAngle a ds ≤ qTwoPi := by
  induction ds generalizing a with
  | nil => exact ha
  | cons d tl ih =>
      have hd := hds d (List.mem_cons_self d tl)
      have hstep := wrapStep_bounds a d ha.1 ha.2 hd.1 hd.2
      exact ih (wrapStep a d) hstep (fun e he => hds e (List.mem_cons_of_mem d he))

/-- C5 counterexample: one tick advancing by `13 > 2π` from angle `0`
leaves the stored angle at `13 - 2π ≈ 6.71682`, which is not in
`[0, 2π)` — the single conditional subtraction of
`PlanetManager::update` does not re-wrap. -/
theorem c5_counterexample :
    qTwoPi < 13 ∧
    ¬ (0 ≤ wrapAngle 0 [13] ∧ wrapAngle 0 [13] < qTwoPi) := by
  have h : wrapAngle 0 [13] = 13 - qTwoPi := by
    show wrapStep 0 13 = 13 - qTwoPi
    simp only [wrapStep]
    rw [if_pos (by norm_num [qTwoPi])]
    norm_num
  refine ⟨by norm_num [qTwoPi], ?_⟩
  rw [h]
  rintro ⟨-, h2⟩
  rw [qTwoPi] at h2
  norm_num at h2

/-- C5 witness: the amended bound evaluated at angle `1` with advances
`[3, 4]`. -/
theorem c5_witness :
    ((0:ℚ) ≤ 1 ∧ (1:ℚ) ≤ qTwoPi) ∧
    (∀ d ∈ [(3:ℚ), 4], 0 ≤ d ∧ d ≤ qTwoPi) ∧
    (0 ≤ wrapAngle 1 [3, 4] ∧ wrapAngle 1 [3, 4] ≤ qTwoPi) := by
  have h1 : (0:ℚ) ≤ 1 ∧ (1:ℚ) ≤ qTwoPi := by norm_num [qTwoPi]
  have h2 : ∀ d ∈ [(3:ℚ), 4], 0 ≤ d ∧ d ≤ qTwoPi := by
    intro d hd
    rcases List.mem_cons.mp hd with h | h
    · subst h; norm_num [qTwoPi]
    · rcases List.mem_cons.mp h with h | h
      · subst h; norm_num [qTwoPi]
      · simp at h
  exact ⟨h1, h2, c5_angle_wrap 1 [3, 4] h1 h2⟩

/-- C6 counterexample: `Planet::Planet(1.0f, 1, nullptr)` stores
resolution `1` — the constructor performs no clamping, so not every path
that sets the resolution enforces `resolution ≥ 2`. -/
theorem c6_counterexample :
    (Planet.mkP 1 1 none).resolution = 1 ∧
    ¬ (2 ≤ (Planet.mkP 1 1 none).resolution) := by
  refine ⟨rfl, ?_⟩
  intro h
  rw [show (Planet.mkP 1 1 none).resolution = 1 from rfl] at h
  exact absurd h (by decide)

/-- C6 (amended): the constructor stores the resolution argument
unmodified (no clamping); only `Planet::setResolution` clamps to a
minimum of `2`, and it preserves the invariant `resolution ≥ 2` for every
planet that already satisfies it. -/
theorem c6_resolution_clamp (radius : ℚ) (resolution : ℤ)
    (noise : Option NoiseFn) (p : PlanetObj) (r : ℤ)
    (hp : 2 ≤ p.resolution) :
    (Planet.mkP radius resolution noise).resolution = resolution ∧
    2 ≤ (Planet.setResolution p r).resolution := by
  refine ⟨rfl, ?_⟩
  unfold Planet.setResolution
  split
  · simp
  · exact hp

/-- C6 witness: the amended statement evaluated on a planet constructed
with resolution `5` and reconfigured with `-3`. -/
theorem c6_witness :
    2 ≤ (Planet.mkP 1 5 none).resolution ∧
    ((Planet.mkP 1 5 none).resolution = 5 ∧
      2 ≤ (Planet.setResolution (Planet.mkP 1 5 none) (-3)).resolution) := by
  have hp : 2 ≤ (Planet.mkP 1 5 none).resolution := by decide
  exact ⟨hp, (c6_resolution_clamp 1 5 none (Planet.mkP 1 5 none) (-3) hp).1,
    (c6_resolution_clamp 1 5 none (Planet.mkP 1 5 none) (-3) hp).2⟩

theorem calculateLOD_tier (distance radius : ℚ) :
    calculateLOD distance radius = 64 ∨ calculateLOD distance radius = 32 ∨
    calculateLOD distance radius = 16 := by
  simp only [calculateLOD]
  split
  · exact Or.inl rfl
  · split
    · exact Or.inr (Or.inl rfl)
    · exact Or.inr (Or.inr rfl)

theorem lodStep_fst_resolution (lib : MathLib) (distance : ℚ) (p : PlanetObj) :
    (lodStep lib distance p).1.resolution = calculateLOD distance p.radius ∧
    (lodStep lib distance p).1.radius = p.radius := by
  have h2t : (2:ℤ) ≤ calculateLOD distance p.radius := by
    rcases calculateLOD_tier distance p.radius with h | h | h <;> rw [h] <;> decide
  simp only [lodStep]
  split
  · rename_i hne
    simp only [Planet.setResolution, if_pos hne, Planet.generate]
    simp only [if_true]
    exact ⟨max_eq_right h2t, trivial⟩
  · rename_i hne
    push_neg at hne
    exact ⟨hne, rfl⟩

/-- C8: `calculateLOD` compares `distance / (radius + 1)` against the
two fixed thresholds and always yields one of the fixed resolutions
64/32/16, and the render-path LOD block is idempotent: running it a
second time with unchanged distance and radius triggers no regeneration
and leaves the planet object unchanged. -/
theorem c8_lod_idempotent (lib : MathLib) (distance : ℚ) (p : PlanetObj) :
    (calculateLOD distance p.radius = 64 ∨ calculateLOD distance p.radius = 32 ∨
      calculateLOD distance p.radius = 16) ∧
    lodStep lib distance (lodStep lib distance p).1 =
      ((lodStep lib distance p).1, false) := by
  refine ⟨calculateLOD_tier distance p.radius, ?_⟩
  obtain ⟨hres, hrad⟩ := lodStep_fst_resolution lib distance p
  generalize hq : (lodStep lib distance p).1 = p' at hres hrad
  simp only [lodStep]
  rw [hrad]
  simp [hres]

theorem fbm3DAux_bound (nf : NoiseFn) (x y z lac pers : ℚ)
    (hnf : ∀ a b c, -1 ≤ nf a b c ∧ nf a b c ≤ 1) (hpers : 0 ≤ pers) :
    ∀ (n : ℕ) (amp freq res maxV : ℚ), 0 ≤ amp → -maxV ≤ res → res ≤ maxV →
      -(fbm3DAux nf x y z lac pers n amp freq res maxV).2 ≤
        (fbm3DAux nf x y z lac pers n amp freq res maxV).1 ∧
      (fbm3DAux nf x y z lac pers n amp freq res maxV).1 ≤
        (fbm3DAux nf x y z lac pers n amp freq res maxV).2 ∧
      maxV ≤ (fbm3DAux nf x y z lac pers n amp freq res maxV).2 := by
  intro n
  induction n with
  | zero =>
      intro amp freq res maxV _ h1 h2
      exact ⟨h1, h2, le_refl _⟩
  | succ n ih =>
      intro amp freq res maxV h0 h1 h2
      have hb := hnf (x * freq) (y * freq) (z * freq)
      have hr1 : -(maxV + amp) ≤ res + nf (x * freq) (y * freq) (z * freq) * amp := by
        nlinarith [hb.1, hb.2]
      have hr2 : res + nf (x * freq) (y * freq) (z * freq) * amp ≤ maxV + amp := by
        nlinarith [hb.1, hb.2]
      have hrec := ih (amp * pers) (freq * lac)
        (res + nf (x * freq) (y * freq) (z * freq) * amp) (maxV + amp)
        (mul_nonneg h0 hpers) hr1 hr2
      exact ⟨hrec.1, hrec.2.1, le_trans (by linarith) hrec.2.2⟩

theorem fbm2DAux_bound (nf : NoiseFn2) (x y lac pers : ℚ)
    (hnf : ∀ a b, -1 ≤ nf a b ∧ nf a b ≤ 1) (hpers : 0 ≤ pers) :
    ∀ (n : ℕ) (amp freq res maxV : ℚ), 0 ≤ amp → -maxV ≤ res → res ≤ maxV →
      -(fbm2DAux nf x y lac pers n amp freq res maxV).2 ≤
        (fbm2DAux nf x y lac pers n amp freq res maxV).1 ∧
      (fbm2DAux nf x y lac pers n amp freq res maxV).1 ≤
        (fbm2DAux nf x y lac pers n amp freq res maxV).2 ∧
      maxV ≤ (fbm2DAux nf x y lac pers n amp freq res maxV).2 := by
  intro n
  induction n with
  | zero =>
      intro amp freq res maxV _ h1 h2
      exact ⟨h1, h2, le_refl _⟩
  | succ n ih =>
      intro amp freq res maxV h0 h1 h2
      have hb := hnf (x * freq) (y * freq)
      have hr1 : -(maxV + amp) ≤ res + nf (x * freq) (y * freq) * amp := by
        nlinarith [hb.1, hb.2]
      have hr2 : res + nf (x * freq) (y * freq) * amp ≤ maxV + amp := by
        nlinarith [hb.1, hb.2]
      have hrec := ih (amp * pers) (freq * lac)
        (res + nf (x * freq) (y * freq) * amp) (maxV + amp)
        (mul_nonneg h0 hpers) hr1 hr2
      exact ⟨hrec.1, hrec.2.1, le_trans (by linarith) hrec.2.2⟩

theorem fbm3D_norm_bound (nf : NoiseFn) (x y z lac pers freq amp : ℚ)
    (hnf : ∀ a b c, -1 ≤ nf a b c ∧ nf a b c ≤ 1) (hpers : 0 ≤ pers)
    (hamp : 0 < amp) (m : ℕ) :
    -1 ≤ (fbm3DAux nf x y z lac pers (m + 1) amp freq 0 0).1 /
        (fbm3DAux nf x y z lac pers (m + 1) amp freq 0 0).2 ∧
    (fbm3DAux nf x y z lac pers (m + 1) amp freq 0 0).1 /
        (fbm3DAux nf x y z lac pers (m + 1) amp freq 0 0).2 ≤ 1 := by
  have hstep : fbm3DAux nf x y z lac pers (m + 1) amp freq 0 0 =
      fbm3DAux nf x y z lac pers m (amp * pers) (freq * lac)
        (0 + nf (x * freq) (y * freq) (z * freq) * amp) (0 + amp) := rfl
  have hb := hnf (x * freq) (y * freq) (z * freq)
  have h1 : -(0 + amp) ≤ 0 + nf (x * freq) (y * freq) (z * freq) * amp := by
    nlinarith [hb.1, hb.2]
  have h2 : 0 + nf (x * freq) (y * freq) (z * freq) * amp ≤ 0 + amp := by
    nlinarith [hb.1, hb.2]
  have hrec := fbm3DAux_bound nf x y z lac pers hnf hpers m (amp * pers)
    (freq * lac) (0 + nf (x * freq) (y * freq) (z * freq) * amp) (0 + amp)
    (mul_nonneg (le_of_lt hamp) hpers) h1 h2
  rw [hstep]
  have hpos : 0 < (fbm3DAux nf x y z lac pers m (amp * pers) (freq * lac)
      (0 + nf (x * freq) (y * freq) (z * freq) * amp) (0 + amp)).2 := by
    have := hrec.2.2
    linarith
  constructor
  · rw [le_div_iff₀ hpos]
    linarith [hrec.1]
  · rw [div_le_one hpos]
    exact hrec.2.1

theorem fbm2D_norm_bound (nf : NoiseFn2) (x y lac pers freq amp : ℚ)
    (hnf : ∀ a b, -1 ≤ nf a b ∧ nf a b ≤ 1) (hpers : 0 ≤ pers)
    (hamp : 0 < amp) (m : ℕ) :
    -1 ≤ (fbm2DAux nf x y lac pers (m + 1) amp freq 0 0).1 /
        (fbm2DAux nf x y lac pers (m + 1) amp freq 0 0).2 ∧
    (fbm2DAux nf x y lac pers (m + 1) amp freq 0 0).1 /
        (fbm2DAux nf x y lac pers (m + 1) amp freq 0 0).2 ≤ 1 := by
  have hstep : fbm2DAux nf x y lac pers (m + 1) amp freq 0 0 =
      fbm2DAux nf x y lac pers m (amp * pers) (freq * lac)
        (0 + nf (x * freq) (y * freq) * amp) (0 + amp) := rfl
  have hb := hnf (x * freq) (y * freq)
  have h1 : -(0 + amp) ≤ 0 + nf (x * freq) (y * freq) * amp := by
    nlinarith [hb.1, hb.2]
  have h2 : 0 + nf (x * freq) (y * freq) * amp ≤ 0 + amp := by
    nlinarith [hb.1, hb.2]
  have hrec := fbm2DAux_bound nf x y lac pers hnf hpers m (amp * pers)
    (freq * lac) (0 + nf (x * freq) (y * freq) * amp) (0 + amp)
    (mul_nonneg (le_of_lt hamp) hpers) h1 h2
  rw [hstep]
  have hpos : 0 < (fbm2DAux nf x y lac pers m (amp * pers) (freq * lac)
      (0 + nf (x * freq) (y * freq) * amp) (0 + amp)).2 := by
    have := hrec.2.2
    linarith
  constructor
  · rw [le_div_iff₀ hpos]
    linarith [hrec.1]
  · rw [div_le_one hpos]
    exact hrec.2.1

theorem fbm3DAux_succ (nf : NoiseFn) (x y z lacunarity persistence : ℚ)
    (n : ℕ) (amp freq res maxV : ℚ) :
    fbm3DAux nf x y z lacunarity persistence (n + 1) amp freq res maxV =
      fbm3DAux nf x y z lacunarity persistence n (amp * persistence)
        (freq * lacunarity) (res + nf (x * freq) (y * freq) (z * freq) * amp)
        (maxV + amp) := rfl

/-- C7 counterexample: with the octave count `2`, base amplitude `1`,
lacunarity `2` and persistence `-1/2`, and a base-noise function bounded
in `[-1, 1]` (the claim's only assumption), `getFBm3D` returns `3`: the
amplitude sum is `1 - 1/2 = 1/2` while the accumulated sum is
`1·1 + (-1)·(-1/2) = 3/2`, so dividing by the amplitude sum does not
confine the output to `[-1, 1]`. -/
theorem c7_counterexample :
    (∀ a b c : ℚ, -1 ≤ c7nf a b c ∧ c7nf a b c ≤ 1) ∧
    getFBm3D c7nf 1 0 0 2 1 1 2 (-1/2) = 3 ∧
    ¬ (getFBm3D c7nf 1 0 0 2 1 1 2 (-1/2) ≤ 1) := by
  refine ⟨?_, ?_, ?_⟩
  · intro a b c
    unfold c7nf
    split <;> norm_num
  · show (fbm3DAux c7nf 1 0 0 2 (-1/2) (Int.toNat 2) 1 1 0 0).1 /
      (fbm3DAux c7nf 1 0 0 2 (-1/2) (Int.toNat 2) 1 1 0 0).2 = 3
    rw [show Int.toNat 2 = 1 + 1 from rfl]
    rw [fbm3DAux_succ, fbm3DAux_succ]
    norm_num [fbm3DAux, c7nf]
  · show ¬ ((fbm3DAux c7nf 1 0 0 2 (-1/2) (Int.toNat 2) 1 1 0 0).1 /
      (fbm3DAux c7nf 1 0 0 2 (-1/2) (Int.toNat 2) 1 1 0 0).2 ≤ 1)
    rw [show Int.toNat 2 = 1 + 1 from rfl]
    rw [fbm3DAux_succ, fbm3DAux_succ]
    norm_num [fbm3DAux, c7nf]

/-- C7 (amended): the claimed bound does not hold for every octave count
and every parameter set (zero octaves divides `0.0` by `0.0`, and a
negative persistence can push the normalized sum outside `[-1, 1]`); it
holds for at least one octave, positive base amplitude and nonnegative
persistence: then the normalized fractal sums `getFBm3D` and `getFBm2D`
lie in `[-1, 1]` whenever every base-noise sample lies in `[-1, 1]`, and
the per-vertex accumulation of `Planet::generateHeight` (gain 0.5,
lacunarity 2, normalized by the amplitude sum) lies in
`[-heightScale, heightScale]`. -/
theorem c7_fbm_normalized (nf : NoiseFn) (nf2 : NoiseFn2) (x y z : ℚ)
    (octaves : ℤ) (frequency amplitude lacunarity persistence heightScale : ℚ)
    (pos : Vec3)
    (hoct : 1 ≤ octaves) (hamp : 0 < amplitude) (hpers : 0 ≤ persistence)
    (hnf : ∀ a b c, -1 ≤ nf a b c ∧ nf a b c ≤ 1)
    (hnf2 : ∀ a b, -1 ≤ nf2 a b ∧ nf2 a b ≤ 1)
    (hhs : 0 ≤ heightScale) :
    (-1 ≤ getFBm3D nf x y z octaves frequency amplitude lacunarity persistence ∧
      getFBm3D nf x y z octaves frequency amplitude lacunarity persistence ≤ 1) ∧
    (-1 ≤ getFBm2D nf2 x y octaves frequency amplitude lacunarity persistence ∧
      getFBm2D nf2 x y octaves frequency amplitude lacunarity persistence ≤ 1) ∧
    (-heightScale ≤ generateHeight (some nf) frequency heightScale octaves pos ∧
      generateHeight (some nf) frequency heightScale octaves pos ≤ heightScale) := by
  obtain ⟨m, hm⟩ : ∃ m, octaves.toNat = m + 1 := ⟨octaves.toNat - 1, by omega⟩
  refine ⟨?_, ?_, ?_⟩
  · simp only [getFBm3D, hm]
    exact fbm3D_norm_bound nf x y z lacunarity persistence frequency amplitude
      hnf hpers hamp m
  · simp only [getFBm2D, hm]
    exact fbm2D_norm_bound nf2 x y lacunarity persistence frequency amplitude
      hnf2 hpers hamp m
  · simp only [generateHeight, hm]
    have hq := fbm3D_norm_bound nf pos.x pos.y pos.z 2 (1/2) frequency 1 hnf
      (by norm_num) (by norm_num) m
    constructor
    · nlinarith [hq.1, hq.2]
    · nlinarith [hq.1, hq.2]

/-- C7 witness: the bound evaluated at the constant `1/2` noise
function with 3 octaves. -/
theorem c7_witness :
    (1 ≤ (3:ℤ)) ∧ ((0:ℚ) < 1) ∧ ((0:ℚ) ≤ 1/2) ∧
    (∀ a b c : ℚ, -1 ≤ (fun _ _ _ => (1:ℚ)/2) a b c ∧
      (fun _ _ _ => (1:ℚ)/2) a b c ≤ 1) ∧
    (∀ a b : ℚ, -1 ≤ (fun _ _ => (1:ℚ)/2) a b ∧ (fun _ _ => (1:ℚ)/2) a b ≤ 1) ∧
    ((0:ℚ) ≤ 1/2) ∧
    (-1 ≤ getFBm3D (fun _ _ _ => 1/2) 1 2 3 3 (1/100) 1 2 (1/2) ∧
      getFBm3D (fun _ _ _ => 1/2) 1 2 3 3 (1/100) 1 2 (1/2) ≤ 1) := by
  have hoct : 1 ≤ (3:ℤ) := by norm_num
  have hamp : (0:ℚ) < 1 := by norm_num
  have hpers : (0:ℚ) ≤ 1/2 := by norm_num
  have hnf : ∀ a b c : ℚ, -1 ≤ (fun _ _ _ => (1:ℚ)/2) a b c ∧
      (fun _ _ _ => (1:ℚ)/2) a b c ≤ 1 := by
    intro a b c
    norm_num
  have hnf2 : ∀ a b : ℚ, -1 ≤ (fun _ _ => (1:ℚ)/2) a b ∧
      (fun _ _ => (1:ℚ)/2) a b ≤ 1 := by
    intro a b
    norm_num
  exact ⟨hoct, hamp, hpers, hnf, hnf2, hpers,
    (c7_fbm_normalized (fun _ _ _ => 1/2) (fun _ _ => 1/2) 1 2 3 3 (1/100) 1 2
      (1/2) (1/2) Vec3.zero hoct hamp hpers hnf hnf2 hpers).1⟩

/-- C10: a tick update mutates only the current orbit angle, the
current self-rotation and the derived position: `PlanetManager::update`
leaves every planet's mesh, scale, color, rotation speed, seed, type,
orbit radius/speed/center, inclination, eccentricity and moon count
unchanged, and both it and `Moon::update` leave every moon's persistent
fields (mesh, color, radius, orbit radius, orbit speed, inclination,
rotation speed) unchanged, for any `Δt`. -/
theorem c10_update_frame_effect (lib : MathLib) (dt : ℚ) (p : PlanetInstance)
    (ppos : Vec3) (m : MoonB) (ps : List PlanetInstance) :
    (instUpdate lib dt p).planet = p.planet ∧
    (instUpdate lib dt p).scale = p.scale ∧
    (instUpdate lib dt p).color = p.color ∧
    (instUpdate lib dt p).rotationSpeed = p.rotationSpeed ∧
    (instUpdate lib dt p).seed = p.seed ∧
    (instUpdate lib dt p).ptype = p.ptype ∧
    (instUpdate lib dt p).orbitRadius = p.orbitRadius ∧
    (instUpdate lib dt p).orbitSpeed = p.orbitSpeed ∧
    (instUpdate lib dt p).orbitCenter = p.orbitCenter ∧
    (instUpdate lib dt p).orbitInclination = p.orbitInclination ∧
    (instUpdate lib dt p).orbitEccentricity = p.orbitEccentricity ∧
    (instUpdate lib dt p).moons.length = p.moons.length ∧
    (instUpdate lib dt p).moons.map moonPersist = p.moons.map moonPersist ∧
    moonPersist (Moon.update lib dt ppos m) = moonPersist m ∧
    (managerUpdate lib dt ps).length = ps.length := by
  refine ⟨rfl, rfl, rfl, rfl, rfl, rfl, rfl, rfl, rfl, rfl, rfl, ?_, ?_, rfl, ?_⟩
  · simp [instUpdate]
  · show (p.moons.map (Moon.update lib dt _)).map moonPersist = _
    rw [List.map_map]
    exact List.map_congr_left (fun a _ => rfl)
  · simp [managerUpdate]

theorem idraw_bounds (r : RngStream) (hr : r.Valid) (k : ℕ) (a b : ℤ)
    (hab : a ≤ b) : a ≤ idraw r k a b ∧ idraw r k a b ≤ b := by
  obtain ⟨h0, h1⟩ := hr k
  have hfac : (0:ℚ) < (b : ℚ) - (a : ℚ) + 1 := by
    have : (a:ℚ) ≤ (b:ℚ) := by exact_mod_cast hab
    linarith
  unfold idraw
  constructor
  · have hnn : (0:ℤ) ≤ ⌊r.canon k * ((b:ℚ) - (a:ℚ) + 1)⌋ :=
      Int.floor_nonneg.mpr (mul_nonneg h0 (le_of_lt hfac))
    omega
  · have hlt : ⌊r.canon k * ((b:ℚ) - (a:ℚ) + 1)⌋ < b - a + 1 := by
      rw [Int.floor_lt]
      push_cast
      nlinarith
    omega

/-- C9: for a planet of type gas (tag 1), the moon count is drawn from
the generator seeded with the planet seed plus the fixed offset `54321`
(`uniform_int_distribution(0, 4)` since gas giants have `maxMoons = 4`),
lies in `[0, 4]`, equals the generated moon-list length, and advances the
global `rand()` cursor by exactly that count. -/
theorem c9_gas_moon_count (lib : MathLib) (Ω : RngAlg) (grand : ℕ → ℕ)
    (gcur : ℕ) (seed : ℤ) (hΩ : (Ω (seed + 54321)).Valid) :
    0 ≤ idraw (Ω (seed + 54321)) 0 0 4 ∧
    idraw (Ω (seed + 54321)) 0 0 4 ≤ 4 ∧
    ((generateMoonsForPlanet lib Ω grand gcur seed 1 10).1.length : ℤ) =
      idraw (Ω (seed + 54321)) 0 0 4 ∧
    (generateMoonsForPlanet lib Ω grand gcur seed 1 10).2 =
      gcur + (idraw (Ω (seed + 54321)) 0 0 4).toNat := by
  have hb := idraw_bounds (Ω (seed + 54321)) hΩ 0 0 4 (by norm_num)
  have hmax : maxMoonsFor 1 10 = 4 := by norm_num [maxMoonsFor]
  refine ⟨hb.1, hb.2, ?_, ?_⟩
  · simp only [generateMoonsForPlanet, hmax, List.length_map, List.length_range]
    exact Int.toNat_of_nonneg hb.1
  · simp only [generateMoonsForPlanet, hmax]

/-- C9 witness: the moon-count property evaluated at seed 7 under the
constant-canonical oracle. -/
theorem c9_witness :
    (constΩ ((7:ℤ) + 54321)).Valid ∧
    ((generateMoonsForPlanet ceLib constΩ grandZero 0 7 1 10).1.length : ℤ) =
      idraw (constΩ (7 + 54321)) 0 0 4 := by
  have hv : (constΩ ((7:ℤ) + 54321)).Valid := by
    intro k
    constructor <;> norm_num [constΩ, constStream]
  exact ⟨hv, (c9_gas_moon_count ceLib constΩ grandZero 0 7 hv).2.2.1⟩

theorem qtrunc_nonneg (q : ℚ) (h : 0 ≤ q) : 0 ≤ qtrunc q := by
  unfold qtrunc
  rw [if_neg (not_lt.mpr h)]
  exact Int.floor_nonneg.mpr h

theorem qclamp_pos_of_pos (v lo hi : ℚ) (hlo : 0 < lo) (hhi : 0 < hi) :
    0 < qclamp v lo hi := by
  unfold qclamp
  split
  · exact hlo
  · split
    · exact hhi
    · rename_i h1 h2
      push_neg at h1
      linarith

/-- C3 (amended): `setDensity(d)` on a belt (rings) clamps `d` to
`[0.1, 2.0]` (`[0.1, 3.0]`), and the regenerated particle-list length is
the int-truncation (not rounding) of `currentCount · clamp(d)`, where
`currentCount` is the stored count field — which is overwritten by the
same value, so successive density edits compound instead of referring to
the original base count. -/
theorem c3_set_density (lib : MathLib) (Ω : RngAlg) (b : BeltState)
    (s : RingsState) (db dr : ℚ)
    (hb : b.asteroidCount = (b.asteroids.length : ℤ))
    (hs : s.particleCount = (s.particles.length : ℤ)) :
    (((AsteroidBelt.setDensity lib Ω b db).asteroids.length : ℤ) =
        qtrunc ((b.asteroidCount : ℚ) * qclamp db (1/10) 2) ∧
      (AsteroidBelt.setDensity lib Ω b db).asteroidCount =
        qtrunc ((b.asteroidCount : ℚ) * qclamp db (1/10) 2)) ∧
    (((PlanetaryRings.setDensity lib Ω s dr).particles.length : ℤ) =
        qtrunc ((s.particleCount : ℚ) * qclamp dr (1/10) 3) ∧
      (PlanetaryRings.setDensity lib Ω s dr).particleCount =
        qtrunc ((s.particleCount : ℚ) * qclamp dr (1/10) 3)) := by
  constructor
  · have hcnt : (0:ℤ) ≤ b.asteroidCount := by
      rw [hb]
      exact_mod_cast Nat.zero_le _
    have hnn : 0 ≤ qtrunc ((b.asteroidCount : ℚ) * qclamp db (1/10) 2) := by
      apply qtrunc_nonneg
      apply mul_nonneg
      · exact_mod_cast hcnt
      · exact le_of_lt (qclamp_pos_of_pos db (1/10) 2 (by norm_num) (by norm_num))
    simp only [AsteroidBelt.setDensity]
    split
    · simp only [generateAsteroids, List.length_map, List.length_range]
      exact ⟨Int.toNat_of_nonneg hnn, trivial⟩
    · rename_i h
      push_neg at h
      exact ⟨h.symm, hb.trans h.symm⟩
  · have hcnt : (0:ℤ) ≤ s.particleCount := by
      rw [hs]
      exact_mod_cast Nat.zero_le _
    have hnn : 0 ≤ qtrunc ((s.particleCount : ℚ) * qclamp dr (1/10) 3) := by
      apply qtrunc_nonneg
      apply mul_nonneg
      · exact_mod_cast hcnt
      · exact le_of_lt (qclamp_pos_of_pos dr (1/10) 3 (by norm_num) (by norm_num))
    simp only [PlanetaryRings.setDensity]
    split
    · simp only [generateRingParticles, List.length_map, List.length_range]
      exact ⟨Int.toNat_of_nonneg hnn, trivial⟩
    · rename_i h
      push_neg at h
      exact ⟨h.symm, hs.trans h.symm⟩

theorem placeLoop_succ (lib : MathLib) (Ω : RngAlg) (systemSeed : ℤ) (i : ℕ)
    (fuel attempts cursor : ℕ) (placed : List (Vec3 × ℚ)) :
    placeLoop lib Ω systemSeed i (fuel + 1) attempts cursor placed =
      (let t := attemptOnce lib Ω systemSeed i attempts cursor placed
       if t.2.2 then (some (t.1, t.2.1), cursor + 3)
       else if attempts + 1 < 50 then
         placeLoop lib Ω systemSeed i fuel (attempts + 1) (cursor + 3) placed
       else (none, cursor + 3)) := rfl

theorem c1_att : attemptOnce ceLib omega1 1337 0 0 0 [] =
    (⟨145/2, 0, 0⟩, 11/4, true) := by
  norm_num [attemptOnce, udraw, omega1, ceLib, qTwoPi, generatePlanetProperties,
    idraw, constStream]

theorem c1_place : placeLoop ceLib omega1 1337 0 50 0 0 [] =
    (some (⟨145/2, 0, 0⟩, 11/4), 3) := by
  rw [show (50:ℕ) = 49 + 1 from rfl, placeLoop_succ]
  rw [c1_att]
  norm_num

theorem c1_vlen : vlen ceLib (⟨145/2, 0, 0⟩ : Vec3) = 145/2 := by
  norm_num [vlen, ceLib, ceSqrt]

theorem c1_ptype :
    (generatePlanetProperties omega1 1337 (145/2)).2.2.2 = 0 := by
  norm_num [generatePlanetProperties, omega1, idraw]

theorem c1_moons (g : ℕ → ℕ) :
    (generateMoonsForPlanet ceLib omega1 g 0 1337 0 1).1.map
      (fun m => m.orbitInclination) = [inclOfRand (g 0)] := by
  have hcnt : idraw (omega1 (1337 + 54321)) 0 0 (maxMoonsFor 0 1) = 1 := by
    norm_num [omega1, idraw, maxMoonsFor, constStream]
  simp only [generateMoonsForPlanet, hcnt]
  rw [show List.range (Int.toNat 1) = [0] by decide]
  simp [Moon.mkM]

theorem c1_eval (g : ℕ → ℕ) :
    (generateSolarSystem ceLib (some ceNoiseFn) omega1 g 1337 1).planets.map
      (fun p => p.moons.map (fun m => m.orbitInclination)) =
      [[inclOfRand (g 0)]] := by
  simp only [generateSolarSystem]
  rw [show List.range 1 = [0] by decide]
  simp only [List.foldl_cons, List.foldl_nil]
  simp only [planetStep, GenState.init, c1_place]
  simp only [c1_vlen]
  simp only [addPlanet]
  simp only [Nat.cast_zero, zero_mul, add_zero]
  rw [c1_ptype]
  simp only [List.nil_append, Option.toList_some, List.map_cons, List.map_nil]
  rw [c1_moons g]

/-- C1 counterexample: two `generateSolarSystem(1337, 1)` calls that
differ only in the state of the C global `rand()` stream (the hidden
state `Moon::Moon` reads) produce different moon orbital inclinations —
generation output is not a function of the explicit seed alone. -/
theorem c1_counterexample :
    (generateSolarSystem ceLib (some ceNoiseFn) omega1 grandZero 1337 1).planets.map
      (fun p => p.moons.map (fun m => m.orbitInclination)) ≠
    (generateSolarSystem ceLib (some ceNoiseFn) omega1 grandFifty 1337 1).planets.map
      (fun p => p.moons.map (fun m => m.orbitInclination)) := by
  rw [c1_eval grandZero, c1_eval grandFifty]
  norm_num [inclOfRand, grandZero, grandFifty]

theorem eraseMoon_mkM (lib : MathLib) (r r' : ℕ)
    (radius orbitRadius orbitSpeed : ℚ) (color : Vec3) (resolution : ℤ) :
    MoonB.erase (Moon.mkM lib r radius orbitRadius orbitSpeed color resolution) =
    MoonB.erase (Moon.mkM lib r' radius orbitRadius orbitSpeed color resolution) :=
  rfl

theorem genMoons_erase (lib : MathLib) (Ω : RngAlg) (g g' : ℕ → ℕ) (c c' : ℕ)
    (seed : ℤ) (ptype : ℤ) (scale : ℚ) :
    (generateMoonsForPlanet lib Ω g c seed ptype scale).1.map MoonB.erase =
    (generateMoonsForPlanet lib Ω g' c' seed ptype scale).1.map MoonB.erase := by
  simp only [generateMoonsForPlanet, List.map_map]
  exact List.map_congr_left (fun i _ => eraseMoon_mkM lib (g (c + i)) (g' (c' + i)) _ _ _ _ _)

theorem genMoons_cursor (lib : MathLib) (Ω : RngAlg) (g : ℕ → ℕ) (c : ℕ)
    (seed : ℤ) (ptype : ℤ) (scale : ℚ) :
    (generateMoonsForPlanet lib Ω g c seed ptype scale).2 =
    c + (idraw (Ω (seed + 54321)) 0 0 (maxMoonsFor ptype scale)).toNat := rfl

theorem optmap_toList {α β : Type} (f : α → β) (o o' : Option α)
    (h : o.map f = o'.map f) : o.toList.map f = o'.toList.map f := by
  cases o <;> cases o' <;> simp_all

theorem addPlanet_erase (lib : MathLib) (noise : Option NoiseFn) (Ω : RngAlg)
    (g g' : ℕ → ℕ) (c : ℕ) (position : Vec3) (radius : ℚ) (color : Vec3)
    (rotationSpeed : ℚ) (seed ptype resolution : ℤ) :
    (addPlanet lib noise Ω g c position radius color rotationSpeed seed ptype
        resolution).1.map PlanetInstance.erase =
      (addPlanet lib noise Ω g' c position radius color rotationSpeed seed ptype
        resolution).1.map PlanetInstance.erase ∧
    (addPlanet lib noise Ω g c position radius color rotationSpeed seed ptype
        resolution).2 =
      (addPlanet lib noise Ω g' c position radius color rotationSpeed seed ptype
        resolution).2 := by
  cases noise with
  | none => exact ⟨rfl, rfl⟩
  | some nf =>
      constructor
      · simp only [addPlanet]
        have hm : ∀ (x : PlanetInstance),
            Option.map PlanetInstance.erase (some x) =
              some (PlanetInstance.erase x) := fun _ => rfl
        rw [hm, hm]
        apply congrArg some
        simp only [PlanetInstance.erase]
        rw [genMoons_erase lib Ω g g' c c seed ptype 1]
      · simp only [addPlanet, genMoons_cursor]

theorem erase_state_iff (st st' : GenState) :
    GenState.erase st = GenState.erase st' ↔
      (st.planets.map PlanetInstance.erase = st'.planets.map PlanetInstance.erase ∧
       st.placed = st'.placed ∧ st.tempRadii = st'.tempRadii ∧
       st.sysCursor = st'.sysCursor ∧ st.grandCursor = st'.grandCursor) := by
  cases st
  cases st'
  simp [GenState.erase, GenState.mk.injEq]

theorem planetStep_erase (lib : MathLib) (noise : Option NoiseFn) (Ω : RngAlg)
    (g g' : ℕ → ℕ) (seed : ℤ) (st st' : GenState)
    (h : GenState.erase st = GenState.erase st') (i : ℕ) :
    GenState.erase (planetStep lib noise Ω g seed st i) =
    GenState.erase (planetStep lib noise Ω g' seed st' i) := by
  obtain ⟨hpl, hplaced, htemp, hsys, hgrand⟩ := (erase_state_iff st st').mp h
  simp only [planetStep, hplaced, hsys, hgrand]
  rcases hres : (placeLoop lib Ω seed i 50 0 st'.sysCursor st'.placed).1 with _ | pr
  · simp only []
    exact (erase_state_iff _ _).mpr ⟨hpl, rfl, htemp, rfl, rfl⟩
  · simp only []
    have hadd := addPlanet_erase lib noise Ω g g' st'.grandCursor pr.1
      (generatePlanetProperties Ω (seed + (i:ℤ) * 1000) (vlen lib pr.1)).1
      (generatePlanetProperties Ω (seed + (i:ℤ) * 1000) (vlen lib pr.1)).2.1
      (generatePlanetProperties Ω (seed + (i:ℤ) * 1000) (vlen lib pr.1)).2.2.1
      (seed + (i:ℤ) * 1000)
      (generatePlanetProperties Ω (seed + (i:ℤ) * 1000) (vlen lib pr.1)).2.2.2
      32
    apply (erase_state_iff _ _).mpr
    refine ⟨?_, rfl, ?_, rfl, hadd.2⟩
    · simp only [List.map_append, hpl]
      rw [optmap_toList PlanetInstance.erase _ _ hadd.1]
    · show st.tempRadii ++ [pr.2] = st'.tempRadii ++ [pr.2]
      rw [htemp]

/-- C1 (amended): after erasing each moon's `rand()`-derived orbital
inclination, the entire generation output — planet count, positions,
radii, colors, meshes, moon counts and every other moon attribute — is
independent of the global `rand()` stream, i.e. a function of the
explicit seed, the planet count, the seeded-generator oracle and the math
library alone. -/
theorem c1_seed_only (lib : MathLib) (noise : Option NoiseFn) (Ω : RngAlg)
    (g g' : ℕ → ℕ) (seed : ℤ) (n : ℕ) :
    GenState.erase (generateSolarSystem lib noise Ω g seed n) =
    GenState.erase (generateSolarSystem lib noise Ω g' seed n) := by
  suffices h : ∀ (l : List ℕ) (st st' : GenState),
      GenState.erase st = GenState.erase st' →
      GenState.erase (l.foldl (planetStep lib noise Ω g seed) st) =
      GenState.erase (l.foldl (planetStep lib noise Ω g' seed) st') by
    exact h (List.range n) GenState.init GenState.init rfl
  intro l
  induction l with
  | nil => exact fun st st' h => h
  | cons a tl ih =>
      intro st st' h
      exact ih _ _ (planetStep_erase lib noise Ω g g' seed st st' h a)

theorem vec3_sub (a b c d e f : ℚ) :
    (⟨a, b, c⟩ - ⟨d, e, f⟩ : Vec3) = ⟨a - d, b - e, c - f⟩ := rfl

theorem genRadius_after (lib : MathLib) (r : ℚ) (res : ℤ) (n : Option NoiseFn)
    (a b : ℚ) (c : ℤ) :
    (Planet.generate lib (Planet.setNoiseOctaves (Planet.setNoiseFrequency
      (Planet.setHeightScale (Planet.mkP r res n) a) b) c)).radius = r := rfl

theorem c2_att0 : attemptOnce ceLib omega2 7 0 0 0 [] =
    (⟨621/10, -10, 0⟩, 941/380, true) := by
  norm_num [attemptOnce, udraw, omega2, ceLib, qTwoPi, generatePlanetProperties,
    idraw]

theorem c2_place0 : placeLoop ceLib omega2 7 0 50 0 0 [] =
    (some (⟨621/10, -10, 0⟩, 941/380), 3) := by
  rw [show (50:ℕ) = 49 + 1 from rfl, placeLoop_succ, c2_att0]
  norm_num

theorem c2_vlen0 : vlen ceLib (⟨621/10, -10, 0⟩ : Vec3) = 629/10 := by
  norm_num [vlen, ceLib, ceSqrt]

theorem c2_r0 : (generatePlanetProperties omega2 7 (629/10)).1 = 941/380 := by
  norm_num [generatePlanetProperties, omega2, idraw, udraw]

theorem c2_att1 : attemptOnce ceLib omega2 7 1 0 3
    [(⟨621/10, -10, 0⟩, 941/380)] = (⟨99/2, -10, 0⟩, 33/20, true) := by
  norm_num [attemptOnce, udraw, omega2, ceLib, ceSqrt, qTwoPi,
    generatePlanetProperties, idraw, vlen, vec3_sub]

theorem c2_place1 : placeLoop ceLib omega2 7 1 50 0 3
    [(⟨621/10, -10, 0⟩, 941/380)] = (some (⟨99/2, -10, 0⟩, 33/20), 6) := by
  rw [show (50:ℕ) = 49 + 1 from rfl, placeLoop_succ, c2_att1]
  norm_num

theorem c2_vlen1 : vlen ceLib (⟨99/2, -10, 0⟩ : Vec3) = 101/2 := by
  norm_num [vlen, ceLib, ceSqrt]

theorem c2_r1 : (generatePlanetProperties omega2 1007 (101/2)).1 = 121/20 := by
  norm_num [generatePlanetProperties, omega2, idraw, udraw]

theorem c2_eval :
    (generateSolarSystem ceLib (some ceNoiseFn) omega2 grandZero 7 2).planets.map
      (fun p => (p.position, p.planet.radius)) =
      [(⟨621/10, -10, 0⟩, 941/380), (⟨99/2, -10, 0⟩, 121/20)] := by
  simp only [generateSolarSystem]
  rw [show List.range 2 = [0, 1] by decide]
  simp only [List.foldl_cons, List.foldl_nil]
  simp only [planetStep, GenState.init, c2_place0]
  simp only [Nat.cast_zero, zero_mul, add_zero, c2_vlen0, c2_r0]
  simp only [List.nil_append]
  simp only [c2_place1]
  simp only [Nat.cast_one, one_mul]
  rw [show (7:ℤ) + 1000 = 1007 by norm_num]
  simp only [c2_vlen1, c2_r1]
  simp only [addPlanet, Option.toList_some, List.map_cons, List.map_nil,
    List.append_nil, List.cons_append, List.nil_append]
  rw [genRadius_after, genRadius_after]

/-- C2 counterexample: with system seed 7, generation places two
planets at distance `12.6` whose stored (final) radii are `941/380` and
`121/20`, so `12.6 < 941/380 + 121/20 + 5 ≈ 13.53` — the collision
invariant does not hold for the final stored radii, because the collision
check used planet 1's candidate radius (`1.65`, drawn from the
inner-band seed+attempts stream) while the stored radius (`6.05`) was
recomputed from the attempts-free seed at `|position|`, which crossed the
50-unit band boundary and became a gas giant. -/
theorem c2_counterexample :
    (generateSolarSystem ceLib (some ceNoiseFn) omega2 grandZero 7 2).planets.map
      (fun p => (p.position, p.planet.radius)) =
      [(⟨621/10, -10, 0⟩, 941/380), (⟨99/2, -10, 0⟩, 121/20)] ∧
    vlen ceLib ((⟨99/2, -10, 0⟩ : Vec3) - ⟨621/10, -10, 0⟩) <
      941/380 + 121/20 + 5 := by
  refine ⟨c2_eval, ?_⟩
  norm_num [vlen, vec3_sub, ceLib, ceSqrt]

theorem attemptOnce_valid_spec (lib : MathLib) (Ω : RngAlg) (s : ℤ)
    (i a c : ℕ) (placed : List (Vec3 × ℚ))
    (h : (attemptOnce lib Ω s i a c placed).2.2 = true) :
    ∀ pr ∈ placed, (attemptOnce lib Ω s i a c placed).2.1 + pr.2 + 5 ≤
      vlen lib ((attemptOnce lib Ω s i a c placed).1 - pr.1) := by
  intro pr hpr
  simp only [attemptOnce] at h ⊢
  rw [List.all_eq_true] at h
  have h2 := h pr hpr
  simp only [Bool.not_eq_true', decide_eq_false_iff_not, not_lt] at h2
  exact h2

theorem placeLoop_spec (lib : MathLib) (Ω : RngAlg) (s : ℤ) (i : ℕ) :
    ∀ (fuel a c : ℕ) (placed : List (Vec3 × ℚ)) (pos : Vec3) (t : ℚ) (c' : ℕ),
    placeLoop lib Ω s i fuel a c placed = (some (pos, t), c') →
    ∀ pr ∈ placed, t + pr.2 + 5 ≤ vlen lib (pos - pr.1) := by
  intro fuel
  induction fuel with
  | zero =>
      intro a c placed pos t c' h
      simp [placeLoop] at h
  | succ n ih =>
      intro a c placed pos t c' h
      rw [placeLoop_succ] at h
      simp only [] at h
      split at h
      · rename_i hv
        simp only [Prod.mk.injEq, Option.some.injEq] at h
        obtain ⟨⟨h1, h2⟩, -⟩ := h
        subst h1
        subst h2
        exact attemptOnce_valid_spec lib Ω s i a c placed hv
      · split at h
        · exact ih (a + 1) (c + 3) placed pos t c' h
        · simp at h

theorem planetStep_pairwise (lib : MathLib) (noise : Option NoiseFn)
    (Ω : RngAlg) (g : ℕ → ℕ) (seed : ℤ) (st : GenState) (i : ℕ)
    (hlen : st.placed.length = st.tempRadii.length)
    (hok : pairwiseOk lib st.placed st.tempRadii) :
    (planetStep lib noise Ω g seed st i).placed.length =
      (planetStep lib noise Ω g seed st i).tempRadii.length ∧
    pairwiseOk lib (planetStep lib noise Ω g seed st i).placed
      (planetStep lib noise Ω g seed st i).tempRadii := by
  simp only [planetStep]
  rcases hres : (placeLoop lib Ω seed i 50 0 st.sysCursor st.placed).1 with _ | pr
  · exact ⟨hlen, hok⟩
  · rcases pr with ⟨pos, t⟩
    have hres' : placeLoop lib Ω seed i 50 0 st.sysCursor st.placed =
        (some (pos, t), (placeLoop lib Ω seed i 50 0 st.sysCursor st.placed).2) := by
      rw [← hres]
    have hspec := placeLoop_spec lib Ω seed i 50 0 st.sysCursor st.placed pos t _ hres'
    constructor
    · simp [hlen]
    · intro i' j pi pj tj hij hpi hpj htj
      by_cases hj : j < st.placed.length
      · rw [List.get?_append hj] at hpj
        rw [List.get?_append (by omega : j < st.tempRadii.length)] at htj
        rw [List.get?_append (by omega : i' < st.placed.length)] at hpi
        exact hok i' j pi pj tj hij hpi hpj htj
      · have hjlen : j = st.placed.length := by
          by_contra hne
          have : st.placed.length + 1 ≤ j := by omega
          have hnone : (st.placed ++
              [(pos, (generatePlanetProperties Ω (seed + (i:ℤ) * 1000)
                (vlen lib pos)).1)]).get? j = none := by
            apply List.get?_eq_none.mpr
            simp
            omega
          rw [hpj] at hnone
          cases hnone
        subst hjlen
        have hpj' : pj = (pos, (generatePlanetProperties Ω (seed + (i:ℤ) * 1000)
            (vlen lib pos)).1) := by
          rw [List.get?_concat_length] at hpj
          exact (Option.some.injEq _ _).mp hpj |>.symm
        have htj' : tj = t := by
          rw [hlen, List.get?_concat_length] at htj
          exact (Option.some.injEq _ _).mp htj |>.symm
        have hpi' : st.placed.get? i' = some pi := by
          rwa [List.get?_append (by omega : i' < st.placed.length)] at hpi
        have hmem : pi ∈ st.placed := List.get?_mem hpi'
        subst htj'
        rw [hpj']
        exact hspec pi hmem

theorem addPlanet_some_proj (lib : MathLib) (nf : NoiseFn) (Ω : RngAlg)
    (g : ℕ → ℕ) (c : ℕ) (pos : Vec3) (r : ℚ) (col : Vec3) (rs : ℚ)
    (seed t res : ℤ) :
    (addPlanet lib (some nf) Ω g c pos r col rs seed t res).1.map
      (fun p => (p.position, p.planet.radius)) = some (pos, r) := rfl

theorem planetStep_corr (lib : MathLib) (nf : NoiseFn) (Ω : RngAlg)
    (g : ℕ → ℕ) (seed : ℤ) (st : GenState) (i : ℕ)
    (h : st.planets.map (fun p => (p.position, p.planet.radius)) = st.placed) :
    (planetStep lib (some nf) Ω g seed st i).planets.map
      (fun p => (p.position, p.planet.radius)) =
      (planetStep lib (some nf) Ω g seed st i).placed := by
  simp only [planetStep]
  rcases hres : (placeLoop lib Ω seed i 50 0 st.sysCursor st.placed).1 with _ | pr
  · exact h
  · simp only [List.map_append, h]
    congr 1

/-- C2 (amended): the separation the placement loop actually
guarantees: the stored `(position, finalRadius)` list corresponds
exactly to the planets' stored positions and mesh radii, and for every
pair `i < j` the distance between the stored positions is at least the
earlier planet's final stored radius plus the later planet's accepted
candidate radius plus the 5-unit buffer.  The bound with both final
radii need not hold. -/
theorem c2_separation (lib : MathLib) (nf : NoiseFn) (Ω : RngAlg) (g : ℕ → ℕ)
    (seed : ℤ) (n : ℕ) :
    (generateSolarSystem lib (some nf) Ω g seed n).placed.length =
      (generateSolarSystem lib (some nf) Ω g seed n).tempRadii.length ∧
    (generateSolarSystem lib (some nf) Ω g seed n).planets.map
      (fun p => (p.position, p.planet.radius)) =
      (generateSolarSystem lib (some nf) Ω g seed n).placed ∧
    pairwiseOk lib (generateSolarSystem lib (some nf) Ω g seed n).placed
      (generateSolarSystem lib (some nf) Ω g seed n).tempRadii := by
  suffices h : ∀ (l : List ℕ) (st : GenState),
      (st.placed.length = st.tempRadii.length ∧
       st.planets.map (fun p => (p.position, p.planet.radius)) = st.placed ∧
       pairwiseOk lib st.placed st.tempRadii) →
      ((l.foldl (planetStep lib (some nf) Ω g seed) st).placed.length =
        (l.foldl (planetStep lib (some nf) Ω g seed) st).tempRadii.length ∧
       (l.foldl (planetStep lib (some nf) Ω g seed) st).planets.map
        (fun p => (p.position, p.planet.radius)) =
        (l.foldl (planetStep lib (some nf) Ω g seed) st).placed ∧
       pairwiseOk lib (l.foldl (planetStep lib (some nf) Ω g seed) st).placed
        (l.foldl (planetStep lib (some nf) Ω g seed) st).tempRadii) by
    apply h
    refine ⟨rfl, rfl, ?_⟩
    intro i j pi pj tj hij hpi hpj htj
    simp [GenState.init] at hpj
  intro l
  induction l with
  | nil => exact fun st h => h
  | cons a tl ih =>
      intro st h
      apply ih
      have hstep := planetStep_pairwise lib (some nf) Ω g seed st a h.1 h.2.2
      exact ⟨hstep.1, planetStep_corr lib nf Ω g seed st a h.2.1, hstep.2⟩

theorem c4_att0 : attemptOnce ceLib omega4 1337 0 0 0 [] =
    (⟨598/5, 1248/125, 0⟩, 3788/475, true) := by
  norm_num [attemptOnce, udraw, omega4, ceLib, qTwoPi, generatePlanetProperties,
    idraw]

theorem c4_place0 : placeLoop ceLib omega4 1337 0 50 0 0 [] =
    (some (⟨598/5, 1248/125, 0⟩, 3788/475), 3) := by
  rw [show (50:ℕ) = 49 + 1 from rfl, placeLoop_succ, c4_att0]
  norm_num

theorem c4_vlen0 : vlen ceLib (⟨598/5, 1248/125, 0⟩ : Vec3) = 15002/125 := by
  norm_num [vlen, ceLib, ceSqrt]

theorem c4_r0 : (generatePlanetProperties omega4 1337 (15002/125)).1 =
    3788/475 := by
  norm_num [generatePlanetProperties, omega4, idraw, udraw]

theorem c4_att_invalid (i a c : ℕ) (hi : 1 ≤ i) (hc : c % 3 = 0) :
    (attemptOnce ceLib omega4 1337 i a c
      [(⟨598/5, 1248/125, 0⟩, 3788/475)]).2.2 = false := by
  have hstream : omega4 1337 = ⟨fun k => if k % 3 = 1 then 473/475
      else if k % 3 = 2 then 1249/1250 else 0⟩ := by
    simp [omega4]
  have hseed : omega4 (1337 + (i:ℤ) * 1000 + (a:ℤ)) = ⟨fun _ => 0⟩ := by
    have hne : (1337:ℤ) + (i:ℤ) * 1000 + (a:ℤ) ≠ 1337 := by
      have h1 : (1:ℤ) ≤ (i:ℤ) := by exact_mod_cast hi
      have h2 : (0:ℤ) ≤ (a:ℤ) := Int.ofNat_nonneg a
      intro hcontra
      nlinarith
    simp [omega4, hne]
  have hc0 : c % 3 = 1 → False := by omega
  have hc1 : (c + 1) % 3 = 1 := by omega
  have hc2 : (c + 2) % 3 = 2 := by omega
  simp only [attemptOnce, hstream, hseed, udraw, idraw]
  simp only [hc1, hc2]
  rw [if_neg (by omega : ¬ c % 3 = 1), if_neg (by omega : ¬ c % 3 = 2)]
  norm_num [generatePlanetProperties, ceLib, vlen, vec3_sub, ceSqrt, udraw, idraw, hseed]

theorem c4_place_fail (i : ℕ) (hi : 1 ≤ i) :
    ∀ (fuel a c : ℕ), c % 3 = 0 →
    (placeLoop ceLib omega4 1337 i fuel a c
      [(⟨598/5, 1248/125, 0⟩, 3788/475)]).1 = none ∧
    (placeLoop ceLib omega4 1337 i fuel a c
      [(⟨598/5, 1248/125, 0⟩, 3788/475)]).2 % 3 = 0 := by
  intro fuel
  induction fuel with
  | zero =>
      intro a c hc
      exact ⟨rfl, hc⟩
  | succ n ih =>
      intro a c hc
      rw [placeLoop_succ]
      simp only []
      rw [c4_att_invalid i a c hi hc]
      simp only [Bool.false_eq_true, if_false]
      split
      · exact ih (a + 1) (c + 3) (by omega)
      · exact ⟨rfl, by omega⟩

theorem c4_step_skip (g : ℕ → ℕ) (st : GenState) (i : ℕ) (hi : 1 ≤ i)
    (hplaced : st.placed = [(⟨598/5, 1248/125, 0⟩, 3788/475)])
    (hc : st.sysCursor % 3 = 0) :
    (planetStep ceLib (some ceNoiseFn) omega4 g 1337 st i).planets = st.planets ∧
    (planetStep ceLib (some ceNoiseFn) omega4 g 1337 st i).placed =
      [(⟨598/5, 1248/125, 0⟩, 3788/475)] ∧
    (planetStep ceLib (some ceNoiseFn) omega4 g 1337 st i).sysCursor % 3 = 0 := by
  have hfail := c4_place_fail i hi 50 0 st.sysCursor hc
  simp only [planetStep, hplaced, hfail.1]
  exact ⟨trivial, trivial, hfail.2⟩

theorem c4_step0 (g : ℕ → ℕ) :
    (planetStep ceLib (some ceNoiseFn) omega4 g 1337 GenState.init 0).planets.map
      (fun p => p.orbitRadius) = [15002/125] ∧
    (planetStep ceLib (some ceNoiseFn) omega4 g 1337 GenState.init 0).placed =
      [(⟨598/5, 1248/125, 0⟩, 3788/475)] ∧
    (planetStep ceLib (some ceNoiseFn) omega4 g 1337 GenState.init 0).sysCursor
      % 3 = 0 := by
  simp only [planetStep, GenState.init, c4_place0]
  simp only [Nat.cast_zero, zero_mul, add_zero, c4_vlen0, c4_r0]
  simp only [addPlanet, Option.toList_some, List.nil_append, List.map_cons,
    List.map_nil]
  norm_num [c4_vlen0]

theorem c4_fold (g : ℕ → ℕ) :
    ∀ (l : List ℕ) (st : GenState), (∀ i ∈ l, 1 ≤ i) →
    st.planets.map (fun p => p.orbitRadius) = [15002/125] →
    st.placed = [(⟨598/5, 1248/125, 0⟩, 3788/475)] → st.sysCursor % 3 = 0 →
    (l.foldl (planetStep ceLib (some ceNoiseFn) omega4 g 1337) st).planets.map
      (fun p => p.orbitRadius) = [15002/125] := by
  intro l
  induction l with
  | nil => exact fun st _ h1 _ _ => h1
  | cons a tl ih =>
      intro st hmem h1 h2 h3
      have hskip := c4_step_skip g st a (hmem a (List.mem_cons_self a tl)) h2 h3
      exact ih _ (fun i hi => hmem i (List.mem_cons_of_mem a hi))
        (by rw [hskip.1]; exact h1) hskip.2.1 hskip.2.2

/-- C4 counterexample: with valid draws (distance `119.6`, height
`9.984`, both inside their documented ranges) at seed 1337 with eight
requested planets, the single placed planet's stored orbit radius is
`√(119.6² + 9.984²) = 120.016 > 120` — `orbitRadius` is
`glm::length(position)` including the vertical offset, so the claimed
`[25, 120]` interval is not guaranteed. -/
theorem c4_counterexample :
    (generateSolarSystem ceLib (some ceNoiseFn) omega4 grandZero 1337 8).planets.map
      (fun p => p.orbitRadius) = [15002/125] ∧
    ¬ ((15002:ℚ)/125 ≤ 120) := by
  constructor
  · simp only [generateSolarSystem]
    rw [show List.range 8 = 0 :: [1, 2, 3, 4, 5, 6, 7] by decide]
    rw [List.foldl_cons]
    have h0 := c4_step0 grandZero
    exact c4_fold grandZero [1, 2, 3, 4, 5, 6, 7] _ (by decide) h0.1 h0.2.1 h0.2.2
  · norm_num

theorem udraw_mem (r : RngStream) (hr : r.Valid) (k : ℕ) (a b : ℚ)
    (hab : a < b) : a ≤ udraw r k a b ∧ udraw r k a b < b := by
  obtain ⟨h0, h1⟩ := hr k
  unfold udraw
  constructor
  · nlinarith
  · nlinarith

theorem planetStep_length (lib : MathLib) (noise : Option NoiseFn)
    (Ω : RngAlg) (g : ℕ → ℕ) (seed : ℤ) (st : GenState) (i : ℕ) :
    (planetStep lib noise Ω g seed st i).planets.length ≤
      st.planets.length + 1 := by
  simp only [planetStep]
  rcases hres : (placeLoop lib Ω seed i 50 0 st.sysCursor st.placed).1 with _ | pr
  · simp
  · simp only [List.length_append]
    have hopt : ∀ (o : Option PlanetInstance), o.toList.length ≤ 1 := by
      intro o
      cases o <;> simp
    exact Nat.add_le_add_left (hopt _) _

theorem genSS_length (lib : MathLib) (noise : Option NoiseFn) (Ω : RngAlg)
    (g : ℕ → ℕ) (seed : ℤ) (n : ℕ) :
    (generateSolarSystem lib noise Ω g seed n).planets.length ≤ n := by
  suffices h : ∀ (l : List ℕ) (st : GenState),
      (l.foldl (planetStep lib noise Ω g seed) st).planets.length ≤
        st.planets.length + l.length by
    have := h (List.range n) GenState.init
    simpa [generateSolarSystem, GenState.init] using this
  intro l
  induction l with
  | nil => simp
  | cons a tl ih =>
      intro st
      calc ((a :: tl).foldl (planetStep lib noise Ω g seed) st).planets.length
          = (tl.foldl (planetStep lib noise Ω g seed)
              (planetStep lib noise Ω g seed st a)).planets.length := rfl
        _ ≤ (planetStep lib noise Ω g seed st a).planets.length + tl.length :=
            ih _
        _ ≤ st.planets.length + 1 + tl.length := by
            have := planetStep_length lib noise Ω g seed st a
            omega
        _ = st.planets.length + (a :: tl).length := by
            simp [List.length_cons]
            omega

theorem placeLoop_pos_spec (lib : MathLib) (Ω : RngAlg) (s : ℤ) (i : ℕ) :
    ∀ (fuel a c : ℕ) (placed : List (Vec3 × ℚ)) (pos : Vec3) (t : ℚ) (c' : ℕ),
    placeLoop lib Ω s i fuel a c placed = (some (pos, t), c') →
    ∃ k : ℕ, pos = ⟨udraw (Ω s) (k + 1) 25 120 * lib.mcos (udraw (Ω s) k 0 qTwoPi),
      udraw (Ω s) (k + 2) (-10) 10,
      udraw (Ω s) (k + 1) 25 120 * lib.msin (udraw (Ω s) k 0 qTwoPi)⟩ := by
  intro fuel
  induction fuel with
  | zero =>
      intro a c placed pos t c' h
      simp [placeLoop] at h
  | succ n ih =>
      intro a c placed pos t c' h
      rw [placeLoop_succ] at h
      simp only [] at h
      split at h
      · simp only [Prod.mk.injEq, Option.some.injEq] at h
        obtain ⟨⟨h1, -⟩, -⟩ := h
        exact ⟨c, h1.symm⟩
      · split at h
        · exact ih (a + 1) (c + 3) placed pos t c' h
        · simp at h

theorem planetStep_radius_inv (lib : MathLib) (nf : NoiseFn) (Ω : RngAlg)
    (g : ℕ → ℕ) (seed : ℤ) (st : GenState) (i : ℕ) (hΩ : RngAlg.Valid Ω)
    (hinv : ∀ p ∈ st.planets, ∃ d h θ : ℚ, 25 ≤ d ∧ d < 120 ∧ -10 ≤ h ∧
      h < 10 ∧ p.orbitRadius =
        lib.msqrt (d * lib.mcos θ * (d * lib.mcos θ) + h * h +
          d * lib.msin θ * (d * lib.msin θ))) :
    ∀ p ∈ (planetStep lib (some nf) Ω g seed st i).planets,
      ∃ d h θ : ℚ, 25 ≤ d ∧ d < 120 ∧ -10 ≤ h ∧ h < 10 ∧
        p.orbitRadius = lib.msqrt (d * lib.mcos θ * (d * lib.mcos θ) + h * h +
          d * lib.msin θ * (d * lib.msin θ)) := by
  intro p hp
  simp only [planetStep] at hp
  rcases hres : (placeLoop lib Ω seed i 50 0 st.sysCursor st.placed).1 with _ | pr
  · rw [hres] at hp
    exact hinv p hp
  · rw [hres] at hp
    simp only [List.mem_append] at hp
    rcases hp with hp | hp
    · exact hinv p hp
    · rcases pr with ⟨pos, t⟩
      have hres' : placeLoop lib Ω seed i 50 0 st.sysCursor st.placed =
          (some (pos, t), (placeLoop lib Ω seed i 50 0 st.sysCursor st.placed).2) := by
        rw [← hres]
      obtain ⟨k, hk⟩ := placeLoop_pos_spec lib Ω seed i 50 0 st.sysCursor
        st.placed pos t _ hres'
      simp only [addPlanet, Option.toList_some, List.mem_singleton] at hp
      subst hp
      refine ⟨udraw (Ω seed) (k + 1) 25 120, udraw (Ω seed) (k + 2) (-10) 10,
        udraw (Ω seed) k 0 qTwoPi, ?_, ?_, ?_, ?_, ?_⟩
      · exact (udraw_mem (Ω seed) (hΩ seed) (k + 1) 25 120 (by norm_num)).1
      · exact (udraw_mem (Ω seed) (hΩ seed) (k + 1) 25 120 (by norm_num)).2
      · exact (udraw_mem (Ω seed) (hΩ seed) (k + 2) (-10) 10 (by norm_num)).1
      · exact (udraw_mem (Ω seed) (hΩ seed) (k + 2) (-10) 10 (by norm_num)).2
      · show vlen lib pos = _
        rw [hk]
        simp only [vlen]

/-- C4 (amended): `generateSolarSystem(1337, 8)` produces at most 8
planets, and every produced planet's stored orbit radius is the library
square root of `d² + h²` with `d ∈ [25, 120)` and `h ∈ [-10, 10)`, i.e.
of a value in `[625, 14500)` — so under exact arithmetic the radius lies
in `[25, √14500 ≈ 120.42)`, not `[25, 120]`. -/
theorem c4_amended (lib : MathLib) (nf : NoiseFn) (Ω : RngAlg) (g : ℕ → ℕ)
    (hΩ : RngAlg.Valid Ω)
    (htrig : ∀ x, lib.mcos x * lib.mcos x + lib.msin x * lib.msin x = 1) :
    (generateSolarSystem lib (some nf) Ω g 1337 8).planets.length ≤ 8 ∧
    ∀ p ∈ (generateSolarSystem lib (some nf) Ω g 1337 8).planets,
      ∃ t : ℚ, 625 ≤ t ∧ t < 14500 ∧ p.orbitRadius = lib.msqrt t := by
  constructor
  · exact genSS_length lib (some nf) Ω g 1337 8
  · have hfold : ∀ (l : List ℕ) (st : GenState),
        (∀ p ∈ st.planets, ∃ d h θ : ℚ, 25 ≤ d ∧ d < 120 ∧ -10 ≤ h ∧ h < 10 ∧
          p.orbitRadius = lib.msqrt (d * lib.mcos θ * (d * lib.mcos θ) + h * h +
            d * lib.msin θ * (d * lib.msin θ))) →
        ∀ p ∈ (l.foldl (planetStep lib (some nf) Ω g 1337) st).planets,
          ∃ d h θ : ℚ, 25 ≤ d ∧ d < 120 ∧ -10 ≤ h ∧ h < 10 ∧
            p.orbitRadius = lib.msqrt (d * lib.mcos θ * (d * lib.mcos θ) + h * h +
              d * lib.msin θ * (d * lib.msin θ)) := by
      intro l
      induction l with
      | nil => exact fun st h => h
      | cons a tl ih =>
          intro st h
          exact ih _ (planetStep_radius_inv lib nf Ω g 1337 st a hΩ h)
    intro p hp
    have := hfold (List.range 8) GenState.init (by intro p hp; simp [GenState.init] at hp) p hp
    obtain ⟨d, h, θ, hd1, hd2, hh1, hh2, heq⟩ := this
    refine ⟨d * d + h * h, by nlinarith, by nlinarith, ?_⟩
    rw [heq]
    congr 1
    linear_combination (d * d) * htrig θ

/-- C4 witness: the amended statement instantiated at the
constant-canonical oracle and the scenario math library. -/
theorem c4_witness :
    RngAlg.Valid constΩ ∧
    (∀ x, ceLib.mcos x * ceLib.mcos x + ceLib.msin x * ceLib.msin x = 1) ∧
    (generateSolarSystem ceLib (some ceNoiseFn) constΩ grandZero 1337 8).planets.length ≤ 8 := by
  have hΩ : RngAlg.Valid constΩ := by
    intro s k
    constructor <;> norm_num [constΩ, constStream]
  have htrig : ∀ x, ceLib.mcos x * ceLib.mcos x + ceLib.msin x * ceLib.msin x = 1 := by
    intro x
    norm_num [ceLib]
  exact ⟨hΩ, htrig,
    (c4_amended ceLib ceNoiseFn constΩ grandZero hΩ htrig).1⟩

theorem c3_belt_len : ceBelt.asteroids.length = 10 := by
  simp [ceBelt, AsteroidBelt.mkB, generateAsteroids]

/-- C3 counterexample: a ten-asteroid belt with `setDensity(0.29)`
yields 2 asteroids while `round(10·0.29) = 3`, and two successive
`setDensity(0.5)` calls yield 2 asteroids while `round(10·0.5) = 5` —
the length is a truncation of the compounding current count, not
`round(C·d)` for the original base count. -/
theorem c3_counterexample :
    ceBelt.asteroidCount = 10 ∧
    (AsteroidBelt.setDensity ceLib constΩ ceBelt (29/100)).asteroids.length = 2 ∧
    round ((10:ℚ) * qclamp (29/100) (1/10) 2) = 3 ∧
    (AsteroidBelt.setDensity ceLib constΩ
      (AsteroidBelt.setDensity ceLib constΩ ceBelt (1/2)) (1/2)).asteroids.length
      = 2 ∧
    round ((10:ℚ) * qclamp (1/2) (1/10) 2) = 5 := by
  have hc29 : qclamp (29/100) (1/10) 2 = 29/100 := by norm_num [qclamp]
  have hc12 : qclamp (1/2 : ℚ) (1/10) 2 = 1/2 := by norm_num [qclamp]
  have hcnt : ceBelt.asteroidCount = 10 := rfl
  refine ⟨rfl, ?_, ?_, ?_, ?_⟩
  · have hkey : AsteroidBelt.setDensity ceLib constΩ ceBelt (29/100) =
        generateAsteroids ceLib constΩ { ceBelt with asteroidCount := 2 } := by
      simp only [AsteroidBelt.setDensity, hc29, hcnt]
      rw [show qtrunc (((10:ℤ):ℚ) * (29/100)) = 2 by norm_num [qtrunc]]
      rw [if_pos]
      rw [c3_belt_len]
      norm_num
    rw [hkey]
    simp [generateAsteroids]
  · rw [hc29, round_eq]
    norm_num
  · have hkey1 : AsteroidBelt.setDensity ceLib constΩ ceBelt (1/2) =
        generateAsteroids ceLib constΩ { ceBelt with asteroidCount := 5 } := by
      simp only [AsteroidBelt.setDensity, hc12, hcnt]
      rw [show qtrunc (((10:ℤ):ℚ) * (1/2)) = 5 by norm_num [qtrunc]]
      rw [if_pos]
      rw [c3_belt_len]
      norm_num
    rw [hkey1]
    have hlen5 : (generateAsteroids ceLib constΩ
        { ceBelt with asteroidCount := 5 }).asteroids.length = 5 := by
      simp [generateAsteroids]
    have hcnt5 : (generateAsteroids ceLib constΩ
        { ceBelt with asteroidCount := 5 }).asteroidCount = 5 := rfl
    have hkey2 : AsteroidBelt.setDensity ceLib constΩ
        (generateAsteroids ceLib constΩ { ceBelt with asteroidCount := 5 })
        (1/2) = generateAsteroids ceLib constΩ
          { (generateAsteroids ceLib constΩ { ceBelt with asteroidCount := 5 })
            with asteroidCount := 2 } := by
      simp only [AsteroidBelt.setDensity, hc12, hcnt5]
      rw [show qtrunc (((5:ℤ):ℚ) * (1/2)) = 2 by norm_num [qtrunc]]
      rw [if_pos]
      rw [hlen5]
      norm_num
    rw [hkey2]
    simp [generateAsteroids]
  · rw [hc12, round_eq]
    norm_num

theorem c3_rings_len : ceRings.particles.length = 10 := by
  simp [ceRings, PlanetaryRings.mkR, generateRingParticles]

/-- C3 witness: the amended statement evaluated on the concrete belt
and ring system at density `1/2`. -/
theorem c3_witness :
    ceBelt.asteroidCount = (ceBelt.asteroids.length : ℤ) ∧
    ceRings.particleCount = (ceRings.particles.length : ℤ) ∧
    ((AsteroidBelt.setDensity ceLib constΩ ceBelt (1/2)).asteroids.length : ℤ) =
      qtrunc ((ceBelt.asteroidCount : ℚ) * qclamp (1/2) (1/10) 2) := by
  have hb : ceBelt.asteroidCount = (ceBelt.asteroids.length : ℤ) := by
    rw [c3_belt_len]
    rfl
  have hs : ceRings.particleCount = (ceRings.particles.length : ℤ) := by
    rw [c3_rings_len]
    rfl
  exact ⟨hb, hs,
    (c3_set_density ceLib constΩ ceBelt ceRings (1/2) (1/2) hb hs).1.1⟩

end Astralis
